import Mathlib

/-!
# Nomad: core scheduler garbage collection and client restart trackers

A shallow embedding of `nomad/core_sched.go` (the `_core` scheduler: evaluation
and node garbage collection) and of `client/restarts.go` (the batch and service
restart trackers), followed by theorems about them.

Conventions of the embedding.

* A snapshot iterator (`iter.Next()` until `nil`) is the list of the records it
  yields, in iteration order.
* A Go `error` is an `Option String`: `none` is `nil`.
* Logging (`c.srv.logger.Printf`) has no effect on the results and is left out.
* The write path `c.srv.RPC` is a function giving the outcome of a request; the
  passes return, next to their error, the list of requests they issued, in
  order.
* The threshold `oldThreshold` is computed by the source from the FSM time
  table and the wall clock, both outside these files; it is a parameter.
* `time.Time` instants and `time.Duration` values are integers (nanoseconds):
  `t.Add(d)` is `t + d`, `t.Sub(u)` is `t - u`, `t.After(u)` is `t > u`. Each
  `time.Now()` of the source is one clock reading passed as an argument; the
  service tracker reads the clock twice in a call that finds its window over.
* The counters `count` and `maxAttempts` are Go `int`. The batch tracker
  increments only under `count < maxAttempts`, which cannot overflow, so its
  counters are plain integers. The service tracker is given twice. The methods
  `increment` and `nextRestart` compute on plain integers: they describe the
  tracker as long as the count stays below the largest `int` and `t.Sub(u)`
  does not saturate, which holds for a tracker created with count 0 and called
  fewer than `2^63` times within one window at clock readings not before its
  window start. The methods `incrementInt64` and `nextRestartInt64` compute
  as the machine does on a 64-bit platform: `s.count += 1` wraps around from
  `2^63 - 1` to `-2^63` and `t.Sub(u)` saturates at the smallest and the
  largest `Duration`. The two agree wherever no wrap and no saturation occurs
  (`service_nextRestartInt64_eq`); statements about every tracker state
  whatever its count are made on the 64-bit methods.
-/

namespace Nomad

/-! ## Records of the state store -/

/-- Modelled from the spec: `structs.Evaluation` is declared outside the source
files at hand; the data model gives an evaluation an id, a modify index and a
terminal-status flag (the method `TerminalStatus()`), and the dispatcher reads
its `JobID`. -/
structure Evaluation where
  ID : String
  JobID : String
  ModifyIndex : Nat
  TerminalStatus : Bool
deriving DecidableEq, Repr

/-- Modelled from the spec: `structs.Allocation` is declared outside the source
files at hand; the data model gives an allocation an id, a modify index, a
terminal-status flag, an owning evaluation id and an owning node id. -/
structure Allocation where
  ID : String
  EvalID : String
  NodeID : String
  ModifyIndex : Nat
  TerminalStatus : Bool
deriving DecidableEq, Repr

/-- Modelled from the spec: `structs.Node` is declared outside the source files
at hand; the data model gives a node an id, a modify index and a
terminal-status flag. -/
structure Node where
  ID : String
  ModifyIndex : Nat
  TerminalStatus : Bool
deriving DecidableEq, Repr

/-- Modelled from the spec: `state.StateSnapshot` is declared outside the source
files at hand; it offers the two iterations and the two lookups by relation,
each of which may fail. -/
structure StateSnapshot where
  Evals : Except String (List Evaluation)
  Nodes : Except String (List Node)
  AllocsByEval : String → Except String (List Allocation)
  AllocsByNode : String → Except String (List Allocation)

/-! ## The write path -/

/-- The request of `Eval.Reap`, as `evalGC` fills it in. -/
structure EvalDeleteRequest where
  Evals : List String
  Allocs : List String
  Region : String
deriving DecidableEq, Repr

/-- The request of `Node.Deregister`, as `nodeGC` fills it in. -/
structure NodeDeregisterRequest where
  NodeID : String
  Region : String
deriving DecidableEq, Repr

/-- A call of `c.srv.RPC`: the method together with its request. -/
inductive RPCCall where
  | EvalReap (req : EvalDeleteRequest)
  | NodeDeregister (req : NodeDeregisterRequest)
deriving DecidableEq, Repr

/-- The part of `Server` the core scheduler uses: the configured region and the
outcome of an RPC (`none` when it succeeds). -/
structure Server where
  Region : String
  RPC : RPCCall → Option String

/-! ## `evalGC` -/

/-- The loop labelled `OUTER` of `evalGC` (lines 61-94), run over the
evaluations the iterator yields, with the accumulators `gcEval` and `gcAlloc`. -/
def evalGCScan (snap : StateSnapshot) (oldThreshold : Nat) :
    List Evaluation → List String × List String → List String × List String
  | [], acc => acc
  | eval :: rest, (gcEval, gcAlloc) =>
    -- Ignore non-terminal and new evaluations
    if !eval.TerminalStatus || decide (eval.ModifyIndex > oldThreshold) then
      evalGCScan snap oldThreshold rest (gcEval, gcAlloc)
    else
      -- Get the allocations by eval
      match snap.AllocsByEval eval.ID with
      | .error _ => evalGCScan snap oldThreshold rest (gcEval, gcAlloc)
      | .ok allocs =>
        -- Scan the allocations to ensure they are terminal and old
        if allocs.any (fun alloc =>
            !alloc.TerminalStatus || decide (alloc.ModifyIndex > oldThreshold)) then
          evalGCScan snap oldThreshold rest (gcEval, gcAlloc)
        else
          -- Evaluation is eligible for garbage collection
          evalGCScan snap oldThreshold rest
            (gcEval ++ [eval.ID], gcAlloc ++ allocs.map (fun alloc => alloc.ID))

/-- The function `evalGC`: its error and the RPC calls it issued. -/
def evalGC (srv : Server) (snap : StateSnapshot) (oldThreshold : Nat) :
    Option String × List RPCCall :=
  match snap.Evals with
  | .error err => (some err, [])
  | .ok evals =>
    let (gcEval, gcAlloc) := evalGCScan snap oldThreshold evals ([], [])
    -- Fast-path the nothing case
    if gcEval.length == 0 && gcAlloc.length == 0 then
      (none, [])
    else
      -- Call to the leader to issue the reap
      let req : EvalDeleteRequest :=
        { Evals := gcEval, Allocs := gcAlloc, Region := srv.Region }
      match srv.RPC (.EvalReap req) with
      | some err => (some err, [.EvalReap req])
      | none => (none, [.EvalReap req])

/-! ## `nodeGC` -/

/-- The scan loop of `nodeGC` (lines 136-165), with the accumulator `gcNode`. -/
def nodeGCScan (snap : StateSnapshot) (oldThreshold : Nat) :
    List Node → List String → List String
  | [], gcNode => gcNode
  | node :: rest, gcNode =>
    -- Ignore non-terminal and new nodes
    if !node.TerminalStatus || decide (node.ModifyIndex > oldThreshold) then
      nodeGCScan snap oldThreshold rest gcNode
    else
      -- Get the allocations by node
      match snap.AllocsByNode node.ID with
      | .error _ => nodeGCScan snap oldThreshold rest gcNode
      | .ok allocs =>
        -- If there are any allocations, skip the node
        if allocs.length > 0 then
          nodeGCScan snap oldThreshold rest gcNode
        else
          -- Node is eligible for garbage collection
          nodeGCScan snap oldThreshold rest (gcNode ++ [node.ID])

/-- The reap loop of `nodeGC` (lines 174-186): one request per node id, in
order, returning at the first error. -/
def nodeGCReap (srv : Server) : List String → Option String × List RPCCall
  | [] => (none, [])
  | nodeID :: rest =>
    let req : NodeDeregisterRequest := { NodeID := nodeID, Region := srv.Region }
    match srv.RPC (.NodeDeregister req) with
    | some err => (some err, [.NodeDeregister req])
    | none =>
      let (err, calls) := nodeGCReap srv rest
      (err, .NodeDeregister req :: calls)

/-- The function `nodeGC`: its error and the RPC calls it issued. -/
def nodeGC (srv : Server) (snap : StateSnapshot) (oldThreshold : Nat) :
    Option String × List RPCCall :=
  match snap.Nodes with
  | .error err => (some err, [])
  | .ok nodes =>
    let gcNode := nodeGCScan snap oldThreshold nodes []
    -- Fast-path the nothing case
    if gcNode.length == 0 then
      (none, [])
    else
      nodeGCReap srv gcNode

/-! ## `Process` -/

/-- Modelled from the spec: the constant `structs.CoreJobEvalGC` is declared
outside the source files at hand; it is the job-kind tag of the evaluation
pass. -/
def CoreJobEvalGC : String := "eval-gc"

/-- Modelled from the spec: the constant `structs.CoreJobNodeGC` is declared
outside the source files at hand; it is the job-kind tag of the node pass. -/
def CoreJobNodeGC : String := "node-gc"

/-- The method `Process`: dispatch on the `JobID` of the work item. The two
passes compute their thresholds from separate configured horizons, hence two
threshold parameters. -/
def Process (srv : Server) (snap : StateSnapshot) (evalThreshold nodeThreshold : Nat)
    (eval : Evaluation) : Option String × List RPCCall :=
  if eval.JobID = CoreJobEvalGC then
    evalGC srv snap evalThreshold
  else if eval.JobID = CoreJobNodeGC then
    nodeGC srv snap nodeThreshold
  else
    (some ("core scheduler cannot handle job '" ++ eval.JobID ++ "'"), [])

/-! ## Restart trackers (`client/restarts.go`) -/

/-- A `time.Duration`: a number of nanoseconds. -/
abbrev Duration := Int

/-- A `time.Time`: an instant, in nanoseconds on the clock `time.Now()` reads. -/
abbrev Time := Int

/-- Modelled from the spec: `structs.RestartPolicy` is declared outside the
source files at hand; the data model gives a policy its `maxAttempts`, its
`interval` and its `delay`. -/
structure RestartPolicy where
  Attempts : Int
  Interval : Duration
  Delay : Duration
deriving DecidableEq, Repr

/-- Modelled from the spec: the constant `structs.JobTypeService` is declared
outside the source files at hand; it is the job kind of a service. -/
def JobTypeService : String := "service"

/-- The struct `batchRestartTracker`. -/
structure batchRestartTracker where
  maxAttempts : Int
  delay : Duration
  count : Int
deriving DecidableEq, Repr

/-- The method `increment` of the batch tracker. -/
def batchRestartTracker.increment (b : batchRestartTracker) : batchRestartTracker :=
  { b with count := b.count + 1 }

/-- The method `nextRestart` of the batch tracker: the pair it returns and the
tracker after the call. -/
def batchRestartTracker.nextRestart (b : batchRestartTracker) (exitCode : Int) :
    (Bool × Duration) × batchRestartTracker :=
  if decide (b.count < b.maxAttempts) && decide (exitCode > 0) then
    ((true, b.delay), b.increment)
  else
    ((false, 0), b)

/-- The struct `serviceRestartTracker`. -/
structure serviceRestartTracker where
  maxAttempts : Int
  delay : Duration
  interval : Duration
  count : Int
  startTime : Time
deriving DecidableEq, Repr

/-- The method `increment` of the service tracker. -/
def serviceRestartTracker.increment (s : serviceRestartTracker) : serviceRestartTracker :=
  { s with count := s.count + 1 }

/-- The method `nextRestart` of the service tracker: the pair it returns and the
tracker after the call. `now` is the clock reading of line 74, `now2` the
reading of line 78, taken only when the window is over. The deferred
`increment` runs after the returned pair has been computed. -/
def serviceRestartTracker.nextRestart (s : serviceRestartTracker) (exitCode : Int)
    (now now2 : Time) : (Bool × Duration) × serviceRestartTracker :=
  let _ := exitCode
  let windowEndTime := s.startTime + s.interval
  -- If the window of restart is over we wait until the delay duration
  if now > windowEndTime then
    let s1 : serviceRestartTracker := { s with count := 0, startTime := now2 }
    ((true, s1.delay), s1.increment)
  -- If we are within the delay duration and didn't exhaust all retries
  else if s.count < s.maxAttempts then
    ((true, s.delay), s.increment)
  -- If we exhausted all the retries and are withing the time window
  else
    ((true, windowEndTime - now), s.increment)

/-- The interface `restartTracker`, closed over its two implementations. -/
inductive restartTracker where
  | service (s : serviceRestartTracker)
  | batch (b : batchRestartTracker)
deriving DecidableEq, Repr

/-- The function `newRestartTracker`; `now` is the reading of `time.Now()`. -/
def newRestartTracker (jobType : String) (restartPolicy : RestartPolicy) (now : Time) :
    restartTracker :=
  if jobType = JobTypeService then
    .service
      { maxAttempts := restartPolicy.Attempts
        startTime := now
        interval := restartPolicy.Interval
        delay := restartPolicy.Delay
        count := 0 }
  else
    .batch
      { maxAttempts := restartPolicy.Attempts
        delay := restartPolicy.Delay
        count := 0 }

/-- The function `noRestartsTracker`. -/
def noRestartsTracker : restartTracker :=
  .batch { maxAttempts := 0, delay := 0, count := 0 }

/-- One call of a service tracker: the exit code and the two clock readings. -/
structure ServiceCall where
  exitCode : Int
  now : Time
  now2 : Time
deriving DecidableEq, Repr

/-- A sequence of `nextRestart` calls on one service tracker: the pairs
returned, in order, and the tracker after the last call. -/
def serviceRestartTracker.run (s : serviceRestartTracker) :
    List ServiceCall → List (Bool × Duration) × serviceRestartTracker
  | [] => ([], s)
  | c :: rest =>
    let r := s.nextRestart c.exitCode c.now c.now2
    let rs := serviceRestartTracker.run r.2 rest
    (r.1 :: rs.1, rs.2)

/-- A sequence of `nextRestart` calls on one batch tracker, one per exit code:
the pairs returned, in order, and the tracker after the last call. -/
def batchRestartTracker.run (b : batchRestartTracker) :
    List Int → List (Bool × Duration) × batchRestartTracker
  | [] => ([], b)
  | exitCode :: rest =>
    let r := b.nextRestart exitCode
    let rs := batchRestartTracker.run r.2 rest
    (r.1 :: rs.1, rs.2)

/-- The number of calls, among the pairs returned, that granted a restart. -/
def restartsGranted (rs : List (Bool × Duration)) : Nat :=
  (rs.filter (fun r => r.1)).length

/-! ## Auxiliary definitions for the statements -/

/-- The allocation ids the lookup by evaluation returns for an evaluation id;
none when the lookup fails. -/
def allocIDsByEval (snap : StateSnapshot) (evalID : String) : List String :=
  match snap.AllocsByEval evalID with
  | .ok allocs => allocs.map (fun alloc => alloc.ID)
  | .error _ => []

/-- The test the loop of `evalGC` applies to one evaluation before appending
it: neither `continue` nor `continue OUTER` is taken. -/
def evalGCKeeps (snap : StateSnapshot) (oldThreshold : Nat) (eval : Evaluation) : Bool :=
  if !eval.TerminalStatus || decide (eval.ModifyIndex > oldThreshold) then false
  else
    match snap.AllocsByEval eval.ID with
    | .error _ => false
    | .ok allocs =>
      !allocs.any (fun alloc =>
        !alloc.TerminalStatus || decide (alloc.ModifyIndex > oldThreshold))

/-- The test the loop of `nodeGC` applies to one node before appending it: no
`continue` is taken. -/
def nodeGCKeeps (snap : StateSnapshot) (oldThreshold : Nat) (node : Node) : Bool :=
  if !node.TerminalStatus || decide (node.ModifyIndex > oldThreshold) then false
  else
    match snap.AllocsByNode node.ID with
    | .error _ => false
    | .ok allocs => !decide (allocs.length > 0)

/-! ## Sample inputs -/

/-- A sample server: every RPC succeeds. -/
def sampleServer : Server := { Region := "global", RPC := fun _ => none }

/-- A sample snapshot. Evaluation `e1` is terminal and old with one terminal,
old allocation `a1`; evaluation `e2` is terminal and old with a non-terminal
allocation `a2` and a terminal one `a3`; evaluation `e3` is not terminal. Node
`n1` is terminal and old without allocations; node `n2` is terminal and old
with the terminal allocation `a1`; node `n3` is not terminal. -/
def sampleSnapshot : StateSnapshot :=
  { Evals := .ok
      [ { ID := "e1", JobID := "j", ModifyIndex := 5, TerminalStatus := true },
        { ID := "e2", JobID := "j", ModifyIndex := 6, TerminalStatus := true },
        { ID := "e3", JobID := "j", ModifyIndex := 7, TerminalStatus := false } ]
    Nodes := .ok
      [ { ID := "n1", ModifyIndex := 2, TerminalStatus := true },
        { ID := "n2", ModifyIndex := 3, TerminalStatus := true },
        { ID := "n3", ModifyIndex := 4, TerminalStatus := false } ]
    AllocsByEval := fun id =>
      if id = "e1" then
        .ok [ { ID := "a1", EvalID := "e1", NodeID := "n2", ModifyIndex := 5,
                TerminalStatus := true } ]
      else if id = "e2" then
        .ok [ { ID := "a2", EvalID := "e2", NodeID := "n3", ModifyIndex := 6,
                TerminalStatus := false },
              { ID := "a3", EvalID := "e2", NodeID := "n3", ModifyIndex := 6,
                TerminalStatus := true } ]
      else .ok []
    AllocsByNode := fun id =>
      if id = "n2" then
        .ok [ { ID := "a1", EvalID := "e1", NodeID := "n2", ModifyIndex := 5,
                TerminalStatus := true } ]
      else if id = "n3" then
        .ok [ { ID := "a2", EvalID := "e2", NodeID := "n3", ModifyIndex := 6,
                TerminalStatus := false },
              { ID := "a3", EvalID := "e2", NodeID := "n3", ModifyIndex := 6,
                TerminalStatus := true } ]
      else .ok [] }

/-- The evaluations of the sample snapshot. -/
def sampleEvals : List Evaluation :=
  [ { ID := "e1", JobID := "j", ModifyIndex := 5, TerminalStatus := true },
    { ID := "e2", JobID := "j", ModifyIndex := 6, TerminalStatus := true },
    { ID := "e3", JobID := "j", ModifyIndex := 7, TerminalStatus := false } ]

/-- The nodes of the sample snapshot. -/
def sampleNodes : List Node :=
  [ { ID := "n1", ModifyIndex := 2, TerminalStatus := true },
    { ID := "n2", ModifyIndex := 3, TerminalStatus := true },
    { ID := "n3", ModifyIndex := 4, TerminalStatus := false } ]

/-- One second, in nanoseconds (`time.Second`). -/
def second : Duration := 1000000000

/-- A sample service tracker: interval 10s, delay 20s, fresh at instant 0. -/
def sampleServiceLongDelay : serviceRestartTracker :=
  { maxAttempts := 2, delay := 20 * second, interval := 10 * second, count := 0, startTime := 0 }

/-- A sample service tracker: no attempt allowed, interval 10s, delay 1s, window
started at instant 100s. -/
def sampleServiceLateStart : serviceRestartTracker :=
  { maxAttempts := 0, delay := second, interval := 10 * second, count := 0,
    startTime := 100 * second }

/-- A sample service tracker: two attempts, interval 10s, delay 1s, both
attempts used, window started at instant 0. -/
def sampleServiceExhausted : serviceRestartTracker :=
  { maxAttempts := 2, delay := second, interval := 10 * second, count := 2, startTime := 0 }

/-- A sample batch tracker: three attempts, delay 1s, none used. -/
def sampleBatch : batchRestartTracker :=
  { maxAttempts := 3, delay := second, count := 0 }

/-- A sample batch tracker: two attempts, delay 1s, both used. -/
def sampleBatchExhausted : batchRestartTracker :=
  { maxAttempts := 2, delay := second, count := 2 }

/-- The policy of the window example: two attempts, interval 10s, delay 1s. -/
def samplePolicy : RestartPolicy :=
  { Attempts := 2, Interval := 10 * second, Delay := second }

/-- Three calls made at the instant 0, one right after the other. -/
def sampleImmediateCalls : List ServiceCall :=
  [ { exitCode := 1, now := 0, now2 := 0 },
    { exitCode := 1, now := 0, now2 := 0 },
    { exitCode := 1, now := 0, now2 := 0 } ]

/-! ## The tracker interface, branches and windows -/

/-- A call of `nextRestart` through the interface `restartTracker`: the method
of the implementation behind it runs. The clock readings are those a service
tracker takes; a batch tracker reads no clock. -/
def restartTracker.nextRestart (t : restartTracker) (exitCode : Int) (now now2 : Time) :
    (Bool × Duration) × restartTracker :=
  match t with
  | .service s =>
    ((s.nextRestart exitCode now now2).1, .service (s.nextRestart exitCode now now2).2)
  | .batch b => ((b.nextRestart exitCode).1, .batch (b.nextRestart exitCode).2)

/-- A sequence of `nextRestart` calls through the interface: the pairs
returned, in order, and the tracker after the last call. -/
def restartTracker.run (t : restartTracker) :
    List ServiceCall → List (Bool × Duration) × restartTracker
  | [] => ([], t)
  | c :: rest =>
    let r := t.nextRestart c.exitCode c.now c.now2
    let rs := restartTracker.run r.2 rest
    (r.1 :: rs.1, rs.2)

/-- The three return statements of the service tracker's `nextRestart`. -/
inductive Branch where
  | expired
  | budget
  | throttled
deriving DecidableEq, Repr

/-- The return statement a call of the service tracker's `nextRestart` reaches,
by the two tests of the source. -/
def serviceRestartTracker.branch (s : serviceRestartTracker) (now : Time) : Branch :=
  if now > s.startTime + s.interval then .expired
  else if s.count < s.maxAttempts then .budget
  else .throttled

/-- The branches a sequence of calls takes, one per call, in order. -/
def serviceRestartTracker.branches (s : serviceRestartTracker) :
    List ServiceCall → List Branch
  | [] => []
  | c :: rest =>
    s.branch c.now ::
      serviceRestartTracker.branches (s.nextRestart c.exitCode c.now c.now2).2 rest

/-- The branches that return the base delay: window expiry and within budget. -/
def Branch.unthrottled : Branch → Bool
  | .expired => true
  | .budget => true
  | .throttled => false

/-- The number of calls, among those of one window, that were not throttled. -/
def unthrottledCount (w : List Branch) : Nat :=
  (w.filter Branch.unthrottled).length

/-- The calls of a sequence grouped by window: the calls before the first
window expiry, and then one group per window expiry, made of the expiry call
and the calls that follow it up to the next expiry. -/
def splitWindows : List Branch → List Branch × List (List Branch)
  | [] => ([], [])
  | b :: rest =>
    if b = .expired then ([], (b :: (splitWindows rest).1) :: (splitWindows rest).2)
    else (b :: (splitWindows rest).1, (splitWindows rest).2)

/-! ## Deletions reflected in a snapshot -/

/-- Modelled from the spec: the effect of `Eval.Reap` on the state store is
outside the source files at hand; the snapshot taken after it no longer holds
the evaluations and the allocations whose ids the request carried. -/
def StateSnapshot.deleteEvals (snap : StateSnapshot) (evalIDs allocIDs : List String) :
    StateSnapshot :=
  { Evals := snap.Evals.map (fun evals => evals.filter (fun e => decide (e.ID ∉ evalIDs)))
    Nodes := snap.Nodes
    AllocsByEval := fun id =>
      (snap.AllocsByEval id).map (fun allocs => allocs.filter (fun a => decide (a.ID ∉ allocIDs)))
    AllocsByNode := fun id =>
      (snap.AllocsByNode id).map
        (fun allocs => allocs.filter (fun a => decide (a.ID ∉ allocIDs))) }

/-- Modelled from the spec: the effect of `Node.Deregister` on the state store
is outside the source files at hand; the snapshot taken after it no longer
holds the nodes whose ids were requested. -/
def StateSnapshot.deregisterNodes (snap : StateSnapshot) (nodeIDs : List String) :
    StateSnapshot :=
  { Evals := snap.Evals
    Nodes := snap.Nodes.map (fun nodes => nodes.filter (fun n => decide (n.ID ∉ nodeIDs)))
    AllocsByEval := snap.AllocsByEval
    AllocsByNode := snap.AllocsByNode }

/-- A sample snapshot with failing lookups. Evaluation `e1` and node `n1` are
terminal and old but their lookups of allocations fail; evaluation `e2` and
node `n2` are terminal and old without allocations. -/
def sampleFailingSnapshot : StateSnapshot :=
  { Evals := .ok
      [ { ID := "e1", JobID := "j", ModifyIndex := 5, TerminalStatus := true },
        { ID := "e2", JobID := "j", ModifyIndex := 6, TerminalStatus := true } ]
    Nodes := .ok
      [ { ID := "n1", ModifyIndex := 2, TerminalStatus := true },
        { ID := "n2", ModifyIndex := 3, TerminalStatus := true } ]
    AllocsByEval := fun id => if id = "e1" then .error "lookup failed" else .ok []
    AllocsByNode := fun id => if id = "n1" then .error "lookup failed" else .ok [] }

/-- A sample server whose write path is down: every RPC fails. -/
def sampleFailingServer : Server := { Region := "global", RPC := fun _ => some "no leader" }

/-- A sample server whose write path refuses to deregister node `n2`. -/
def sampleServerFailsN2 : Server :=
  { Region := "global"
    RPC := fun c =>
      if c = .NodeDeregister { NodeID := "n2", Region := "global" } then
        some "deregister failed"
      else none }

/-- A sample snapshot whose iterations fail. -/
def sampleBrokenSnapshot : StateSnapshot :=
  { Evals := .error "no evals table"
    Nodes := .error "no nodes table"
    AllocsByEval := fun _ => .ok []
    AllocsByNode := fun _ => .ok [] }

/-- A sample work item for the core scheduler with the given job id. -/
def sampleCoreEval (jobID : String) : Evaluation :=
  { ID := "c1", JobID := jobID, ModifyIndex := 1, TerminalStatus := false }

/-- Five calls on the tracker of the window example: three at the instant 0,
one 11s later, after the window is over, and one right after that. -/
def samplePacedCalls : List ServiceCall :=
  [ { exitCode := 1, now := 0, now2 := 0 },
    { exitCode := 1, now := 0, now2 := 0 },
    { exitCode := 1, now := 0, now2 := 0 },
    { exitCode := 1, now := 11 * second, now2 := 11 * second },
    { exitCode := 1, now := 11 * second, now2 := 11 * second } ]

/-! ## The service tracker on 64-bit integers -/

/-- The largest value of a Go `int` on a 64-bit platform, which is also the
largest `time.Duration`. -/
def maxInt64 : Int := 9223372036854775807

/-- The smallest value of a Go `int` on a 64-bit platform, which is also the
smallest `time.Duration`. -/
def minInt64 : Int := -9223372036854775808

/-- The value a 64-bit signed integer holds after an operation whose exact
result is `x`: two's complement wrap-around. -/
def wrapInt64 (x : Int) : Int :=
  (x + 9223372036854775808) % 18446744073709551616 - 9223372036854775808

/-- The method `t.Sub(u)` of `time.Time`: the difference of the two instants,
saturated at the largest and at the smallest `Duration`. -/
def timeSub (t u : Time) : Duration :=
  if t - u > maxInt64 then maxInt64
  else if t - u < minInt64 then minInt64
  else t - u

/-- The method `increment` of the service tracker on a 64-bit `int`:
`s.count += 1` wraps around. -/
def serviceRestartTracker.incrementInt64 (s : serviceRestartTracker) :
    serviceRestartTracker :=
  { s with count := wrapInt64 (s.count + 1) }

/-- The method `nextRestart` of the service tracker as the machine computes it:
the deferred `increment` wraps around on a 64-bit `int` and `windowEndTime.Sub(now)`
saturates. The clock readings are as in `nextRestart`. -/
def serviceRestartTracker.nextRestartInt64 (s : serviceRestartTracker) (exitCode : Int)
    (now now2 : Time) : (Bool × Duration) × serviceRestartTracker :=
  let _ := exitCode
  let windowEndTime := s.startTime + s.interval
  -- If the window of restart is over we wait until the delay duration
  if now > windowEndTime then
    let s1 : serviceRestartTracker := { s with count := 0, startTime := now2 }
    ((true, s1.delay), s1.incrementInt64)
  -- If we are within the delay duration and didn't exhaust all retries
  else if s.count < s.maxAttempts then
    ((true, s.delay), s.incrementInt64)
  -- If we exhausted all the retries and are withing the time window
  else
    ((true, timeSub windowEndTime now), s.incrementInt64)

/-- A sequence of `nextRestart` calls on one service tracker, computed as the
machine does: the pairs returned, in order, and the tracker after the last
call. -/
def serviceRestartTracker.runInt64 (s : serviceRestartTracker) :
    List ServiceCall → List (Bool × Duration) × serviceRestartTracker
  | [] => ([], s)
  | c :: rest =>
    let r := s.nextRestartInt64 c.exitCode c.now c.now2
    let rs := serviceRestartTracker.runInt64 r.2 rest
    (r.1 :: rs.1, rs.2)

/-- A sample service tracker whose count is the largest `int`: two attempts,
interval 10s, delay 1s, window started at instant 0. -/
def sampleServiceAtMaxInt : serviceRestartTracker :=
  { maxAttempts := 2, delay := second, interval := 10 * second,
    count := 9223372036854775807, startTime := 0 }

/-! # Theorems -/

/-! ## The scan of `evalGC` -/

theorem evalGCScan_eq (snap : StateSnapshot) (thr : Nat) (evals : List Evaluation) :
    ∀ gcEval gcAlloc : List String,
      evalGCScan snap thr evals (gcEval, gcAlloc) =
        (gcEval ++ (evals.filter (evalGCKeeps snap thr)).map (fun e => e.ID),
         gcAlloc ++ (evals.filter (evalGCKeeps snap thr)).flatMap
            (fun e => allocIDsByEval snap e.ID)) := by
  induction evals with
  | nil => intro gcEval gcAlloc; simp [evalGCScan]
  | cons eval rest ih =>
    intro gcEval gcAlloc
    unfold evalGCScan
    by_cases h1 : (!eval.TerminalStatus || decide (eval.ModifyIndex > thr)) = true
    · have hk : evalGCKeeps snap thr eval = false := by simp [evalGCKeeps, h1]
      simp only [h1, if_true, ih, List.filter_cons, hk]
      simp
    · simp only [h1, if_false]
      cases hl : snap.AllocsByEval eval.ID with
      | error err =>
        have hk : evalGCKeeps snap thr eval = false := by simp [evalGCKeeps, h1, hl]
        simp only [ih, List.filter_cons, hk]
        simp
      | ok allocs =>
        by_cases h2 : allocs.any (fun alloc =>
            !alloc.TerminalStatus || decide (alloc.ModifyIndex > thr)) = true
        · have hk : evalGCKeeps snap thr eval = false := by
            simp only [evalGCKeeps, h1, hl, h2]; simp
          simp only [h2, if_true, ih, List.filter_cons, hk]
          simp
        · have hk : evalGCKeeps snap thr eval = true := by
            simp only [evalGCKeeps, h1, hl]
            simpa using h2
          have ha : allocIDsByEval snap eval.ID = allocs.map (fun alloc => alloc.ID) := by
            simp [allocIDsByEval, hl]
          simp only [h2, if_false, ih, List.filter_cons, hk, if_true, List.map_cons,
            List.flatMap_cons, ha, List.append_assoc, List.singleton_append]
          simp

theorem evalGCKeeps_iff (snap : StateSnapshot) (thr : Nat) (e : Evaluation) :
    evalGCKeeps snap thr e = true ↔
      e.TerminalStatus = true ∧ e.ModifyIndex ≤ thr ∧
        ∃ allocs, snap.AllocsByEval e.ID = .ok allocs ∧
          ∀ a ∈ allocs, a.TerminalStatus = true ∧ a.ModifyIndex ≤ thr := by
  unfold evalGCKeeps
  by_cases h1 : (!e.TerminalStatus || decide (e.ModifyIndex > thr)) = true
  · simp only [h1, if_true]
    constructor
    · intro h; cases h
    · rintro ⟨ht, hm, _⟩
      simp [ht] at h1
      omega
  · simp only [h1, if_false]
    have h1b : e.TerminalStatus = true ∧ e.ModifyIndex ≤ thr := by
      simp at h1
      cases ht : e.TerminalStatus
      · simp [ht] at h1
      · exact ⟨rfl, by have := h1.2; omega⟩
    cases hl : snap.AllocsByEval e.ID with
    | error err =>
      constructor
      · intro h; cases h
      · rintro ⟨_, _, allocs, ha, _⟩; cases ha
    | ok allocs =>
      constructor
      · intro h
        refine ⟨h1b.1, h1b.2, allocs, rfl, ?_⟩
        intro a ha
        simp at h
        have := h a ha
        exact ⟨this.1, by have := this.2; omega⟩
      · rintro ⟨_, _, allocs2, ha, hall⟩
        cases ha
        simp
        intro a ha
        have := hall a ha
        exact ⟨this.1, by omega⟩

theorem evalGC_calls (srv : Server) (snap : StateSnapshot) (thr : Nat)
    (evals : List Evaluation) (h : snap.Evals = .ok evals) :
    (evalGC srv snap thr).2 =
      if evals.filter (evalGCKeeps snap thr) = [] then []
      else [.EvalReap
        { Evals := (evals.filter (evalGCKeeps snap thr)).map (fun e => e.ID)
          Allocs := (evals.filter (evalGCKeeps snap thr)).flatMap
            (fun e => allocIDsByEval snap e.ID)
          Region := srv.Region }] := by
  unfold evalGC
  simp only [h, evalGCScan_eq, List.nil_append]
  by_cases hk : evals.filter (evalGCKeeps snap thr) = []
  · simp [hk]
  · have hne : ¬ ((List.map (fun e => e.ID) (evals.filter (evalGCKeeps snap thr))).length = 0) := by
      simpa using hk
    simp only [hk, if_false]
    split
    · rename_i hc
      simp at hc
      exact absurd hc.1 (by simpa using hk)
    · split <;> rfl

theorem evalGC_call_mem (srv : Server) (snap : StateSnapshot) (thr : Nat)
    (evals : List Evaluation) (h : snap.Evals = .ok evals) (req : EvalDeleteRequest) :
    RPCCall.EvalReap req ∈ (evalGC srv snap thr).2 ↔
      evals.filter (evalGCKeeps snap thr) ≠ [] ∧
      req.Evals = (evals.filter (evalGCKeeps snap thr)).map (fun e => e.ID) ∧
      req.Allocs = (evals.filter (evalGCKeeps snap thr)).flatMap
        (fun e => allocIDsByEval snap e.ID) ∧
      req.Region = srv.Region := by
  rw [evalGC_calls srv snap thr evals h]
  by_cases hk : evals.filter (evalGCKeeps snap thr) = []
  · simp [hk]
  · simp only [hk, if_false, List.mem_singleton, RPCCall.EvalReap.injEq, ne_eq,
      not_false_eq_true, true_and]
    constructor
    · intro he; subst he; exact ⟨rfl, rfl, rfl⟩
    · rintro ⟨h1, h2, h3⟩
      cases req
      simp only at h1 h2 h3
      subst h1 h2 h3
      rfl

/-- C1. Evaluation GC eligibility: when the evaluation iteration yields
`evals`, an id stands in the evaluation list of the delete request `evalGC`
issues if and only if it is the id of an evaluation of the snapshot that is
terminal, has `ModifyIndex <= oldThreshold`, whose lookup of allocations by
evaluation succeeds, and all of whose allocations are terminal with
`ModifyIndex <= oldThreshold`; an evaluation without allocations qualifies on
the first two conditions once its lookup succeeds. -/
theorem evalGC_eval_eligibility (srv : Server) (snap : StateSnapshot) (oldThreshold : Nat)
    (evals : List Evaluation) (h : snap.Evals = .ok evals) (id : String) :
    ((∃ req, RPCCall.EvalReap req ∈ (evalGC srv snap oldThreshold).2 ∧ id ∈ req.Evals) ↔
      ∃ e ∈ evals, e.ID = id ∧ e.TerminalStatus = true ∧ e.ModifyIndex ≤ oldThreshold ∧
        ∃ allocs, snap.AllocsByEval e.ID = .ok allocs ∧
          ∀ a ∈ allocs, a.TerminalStatus = true ∧ a.ModifyIndex ≤ oldThreshold) ∧
    (∀ e ∈ evals, e.TerminalStatus = true → e.ModifyIndex ≤ oldThreshold →
      snap.AllocsByEval e.ID = .ok [] →
      ∃ req, RPCCall.EvalReap req ∈ (evalGC srv snap oldThreshold).2 ∧ e.ID ∈ req.Evals) := by
  have key : (∃ req, RPCCall.EvalReap req ∈ (evalGC srv snap oldThreshold).2 ∧ id ∈ req.Evals) ↔
      ∃ e ∈ evals, e.ID = id ∧ evalGCKeeps snap oldThreshold e = true := by
    constructor
    · rintro ⟨req, hmem, hid⟩
      rw [evalGC_call_mem srv snap oldThreshold evals h] at hmem
      rw [hmem.2.1, List.mem_map] at hid
      obtain ⟨e, he, rfl⟩ := hid
      rw [List.mem_filter] at he
      exact ⟨e, he.1, rfl, he.2⟩
    · rintro ⟨e, he, rfl, hk⟩
      have hmemf : e ∈ evals.filter (evalGCKeeps snap oldThreshold) :=
        List.mem_filter.mpr ⟨he, hk⟩
      refine ⟨{ Evals := (evals.filter (evalGCKeeps snap oldThreshold)).map (fun e => e.ID)
                Allocs := (evals.filter (evalGCKeeps snap oldThreshold)).flatMap
                  (fun e => allocIDsByEval snap e.ID)
                Region := srv.Region },
        (evalGC_call_mem srv snap oldThreshold evals h _).mpr
          ⟨List.ne_nil_of_mem hmemf, rfl, rfl, rfl⟩, ?_⟩
      exact List.mem_map.mpr ⟨e, hmemf, rfl⟩
  refine ⟨?_, ?_⟩
  · rw [key]
    constructor
    · rintro ⟨e, he, hid, hk⟩
      exact ⟨e, he, hid, (evalGCKeeps_iff snap oldThreshold e).mp hk⟩
    · rintro ⟨e, he, hid, hk⟩
      exact ⟨e, he, hid, (evalGCKeeps_iff snap oldThreshold e).mpr hk⟩
  · intro e he ht hm hl
    have hk : evalGCKeeps snap oldThreshold e = true :=
      (evalGCKeeps_iff snap oldThreshold e).mpr
        ⟨ht, hm, [], hl, fun a ha => absurd ha (List.not_mem_nil a)⟩
    have hmemf : e ∈ evals.filter (evalGCKeeps snap oldThreshold) :=
      List.mem_filter.mpr ⟨he, hk⟩
    refine ⟨{ Evals := (evals.filter (evalGCKeeps snap oldThreshold)).map (fun e => e.ID)
              Allocs := (evals.filter (evalGCKeeps snap oldThreshold)).flatMap
                (fun e => allocIDsByEval snap e.ID)
              Region := srv.Region },
      (evalGC_call_mem srv snap oldThreshold evals h _).mpr
        ⟨List.ne_nil_of_mem hmemf, rfl, rfl, rfl⟩, ?_⟩
    exact List.mem_map.mpr ⟨e, hmemf, rfl⟩

/-- The instance of C1 at the sample snapshot, threshold 10 and the id `e1`. -/
theorem evalGC_eval_eligibility_witness :
    sampleSnapshot.Evals = .ok sampleEvals ∧
    (((∃ req, RPCCall.EvalReap req ∈ (evalGC sampleServer sampleSnapshot 10).2 ∧
          "e1" ∈ req.Evals) ↔
      ∃ e ∈ sampleEvals, e.ID = "e1" ∧ e.TerminalStatus = true ∧ e.ModifyIndex ≤ 10 ∧
        ∃ allocs, sampleSnapshot.AllocsByEval e.ID = .ok allocs ∧
          ∀ a ∈ allocs, a.TerminalStatus = true ∧ a.ModifyIndex ≤ 10) ∧
    (∀ e ∈ sampleEvals, e.TerminalStatus = true → e.ModifyIndex ≤ 10 →
      sampleSnapshot.AllocsByEval e.ID = .ok [] →
      ∃ req, RPCCall.EvalReap req ∈ (evalGC sampleServer sampleSnapshot 10).2 ∧
        e.ID ∈ req.Evals)) :=
  ⟨rfl, evalGC_eval_eligibility sampleServer sampleSnapshot 10 sampleEvals rfl "e1"⟩

/-- The evaluation pass on the sample snapshot with threshold 10: evaluation
`e1` and its allocation `a1` are collected; `e2`, which has a non-terminal
allocation, is left out together with its terminal allocation `a3`. -/
theorem evalGC_sample :
    evalGC sampleServer sampleSnapshot 10 =
      (none, [.EvalReap { Evals := ["e1"], Allocs := ["a1"], Region := "global" }]) := by
  decide

/-- With threshold 4 every evaluation of the sample snapshot is too recent:
nothing is collected and no request is issued. -/
theorem evalGC_sample_recent : evalGC sampleServer sampleSnapshot 4 = (none, []) := by
  decide

theorem mem_allocIDsByEval (snap : StateSnapshot) (eid aid : String) :
    aid ∈ allocIDsByEval snap eid ↔
      ∃ allocs, snap.AllocsByEval eid = .ok allocs ∧ ∃ a ∈ allocs, a.ID = aid := by
  unfold allocIDsByEval
  cases hl : snap.AllocsByEval eid with
  | error err => simp
  | ok allocs => simp

/-- C2. All-or-nothing collection of allocations: in the delete request
`evalGC` issues, the allocation ids are exactly the ids of the allocations the
lookup by evaluation returns for the evaluation ids of the same request. Hence
no allocation of a collected evaluation is left out, every collected allocation
belongs to a collected evaluation and is terminal with
`ModifyIndex <= oldThreshold`, and, in a snapshot that lists an allocation id
under one evaluation id only, no allocation of an evaluation outside the
request is collected. -/
theorem evalGC_allocs_all_or_nothing (srv : Server) (snap : StateSnapshot)
    (oldThreshold : Nat) (evals : List Evaluation) (h : snap.Evals = .ok evals)
    (req : EvalDeleteRequest)
    (hreq : RPCCall.EvalReap req ∈ (evalGC srv snap oldThreshold).2) :
    req.Allocs = req.Evals.flatMap (allocIDsByEval snap) ∧
    (∀ aid, aid ∈ req.Allocs ↔
      ∃ eid ∈ req.Evals, ∃ allocs, snap.AllocsByEval eid = .ok allocs ∧
        ∃ a ∈ allocs, a.ID = aid) ∧
    (∀ eid ∈ req.Evals, ∃ allocs, snap.AllocsByEval eid = .ok allocs ∧
      ∀ a ∈ allocs, a.ID ∈ req.Allocs ∧ a.TerminalStatus = true ∧
        a.ModifyIndex ≤ oldThreshold) ∧
    (∀ aid ∈ req.Allocs, ∃ eid ∈ req.Evals, ∃ allocs, snap.AllocsByEval eid = .ok allocs ∧
      ∃ a ∈ allocs, a.ID = aid ∧ a.TerminalStatus = true ∧ a.ModifyIndex ≤ oldThreshold) ∧
    ((∀ eid1 eid2 allocs1 allocs2, eid1 ≠ eid2 →
        snap.AllocsByEval eid1 = .ok allocs1 → snap.AllocsByEval eid2 = .ok allocs2 →
        ∀ a1 ∈ allocs1, ∀ a2 ∈ allocs2, a1.ID ≠ a2.ID) →
      ∀ eid, eid ∉ req.Evals → ∀ allocs, snap.AllocsByEval eid = .ok allocs →
        ∀ a ∈ allocs, a.ID ∉ req.Allocs) := by
  rw [evalGC_call_mem srv snap oldThreshold evals h] at hreq
  obtain ⟨_, hE, hA, _⟩ := hreq
  have h1 : req.Allocs = req.Evals.flatMap (allocIDsByEval snap) := by
    rw [hE, hA, List.flatMap_map]
  have hkept : ∀ eid ∈ req.Evals, ∃ allocs, snap.AllocsByEval eid = .ok allocs ∧
      ∀ a ∈ allocs, a.TerminalStatus = true ∧ a.ModifyIndex ≤ oldThreshold := by
    intro eid heid
    rw [hE, List.mem_map] at heid
    obtain ⟨e, he, rfl⟩ := heid
    exact ((evalGCKeeps_iff snap oldThreshold e).mp (List.mem_filter.mp he).2).2.2
  have h2 : ∀ aid, aid ∈ req.Allocs ↔
      ∃ eid ∈ req.Evals, ∃ allocs, snap.AllocsByEval eid = .ok allocs ∧
        ∃ a ∈ allocs, a.ID = aid := by
    intro aid
    rw [h1, List.mem_flatMap]
    constructor
    · rintro ⟨eid, heid, ha⟩
      exact ⟨eid, heid, (mem_allocIDsByEval snap eid aid).mp ha⟩
    · rintro ⟨eid, heid, ha⟩
      exact ⟨eid, heid, (mem_allocIDsByEval snap eid aid).mpr ha⟩
  have h4 : ∀ aid ∈ req.Allocs, ∃ eid ∈ req.Evals, ∃ allocs,
      snap.AllocsByEval eid = .ok allocs ∧
      ∃ a ∈ allocs, a.ID = aid ∧ a.TerminalStatus = true ∧ a.ModifyIndex ≤ oldThreshold := by
    intro aid haid
    obtain ⟨eid, heid, allocs, hl, a, ha, rfl⟩ := (h2 aid).mp haid
    obtain ⟨allocs2, hl2, hall⟩ := hkept eid heid
    rw [hl] at hl2
    cases hl2
    exact ⟨eid, heid, allocs, hl, a, ha, rfl, hall a ha⟩
  refine ⟨h1, h2, ?_, h4, ?_⟩
  · intro eid heid
    obtain ⟨allocs, hl, hall⟩ := hkept eid heid
    refine ⟨allocs, hl, fun a ha => ⟨?_, hall a ha⟩⟩
    exact (h2 a.ID).mpr ⟨eid, heid, allocs, hl, a, ha, rfl⟩
  · intro hdisj eid hnot allocs hl a ha hmem
    obtain ⟨eid2, heid2, allocs2, hl2, a2, ha2, hid, _⟩ := h4 a.ID hmem
    have hne : eid ≠ eid2 := fun heq => hnot (heq ▸ heid2)
    exact hdisj eid eid2 allocs allocs2 hne hl hl2 a ha a2 ha2 hid.symm

/-- The sample snapshot lists every allocation id under one evaluation id. -/
theorem sampleSnapshot_allocs_disjoint :
    ∀ eid1 eid2 allocs1 allocs2, eid1 ≠ eid2 →
      sampleSnapshot.AllocsByEval eid1 = .ok allocs1 →
      sampleSnapshot.AllocsByEval eid2 = .ok allocs2 →
      ∀ a1 ∈ allocs1, ∀ a2 ∈ allocs2, a1.ID ≠ a2.ID := by
  intro eid1 eid2 allocs1 allocs2 hne h1 h2 a1 ha1 a2 ha2
  have key : ∀ eid allocs, sampleSnapshot.AllocsByEval eid = .ok allocs →
      ∀ a ∈ allocs, (eid = "e1" ∧ a.ID = "a1") ∨ (eid = "e2" ∧ (a.ID = "a2" ∨ a.ID = "a3")) := by
    intro eid allocs hl a ha
    simp only [sampleSnapshot] at hl
    split_ifs at hl with he1 he2
    · cases hl
      simp only [List.mem_singleton] at ha
      subst ha
      exact Or.inl ⟨he1, rfl⟩
    · cases hl
      simp only [List.mem_cons, List.mem_singleton, List.not_mem_nil, or_false] at ha
      rcases ha with rfl | rfl
      · exact Or.inr ⟨he2, Or.inl rfl⟩
      · exact Or.inr ⟨he2, Or.inr rfl⟩
    · cases hl
      exact absurd ha (List.not_mem_nil a)
  intro heq
  rcases key eid1 allocs1 h1 a1 ha1 with ⟨e1, i1⟩ | ⟨e1, i1 | i1⟩ <;>
    rcases key eid2 allocs2 h2 a2 ha2 with ⟨e2, i2⟩ | ⟨e2, i2 | i2⟩ <;>
    first
    | exact hne (e1.trans e2.symm)
    | (rw [i1, i2] at heq; exact absurd heq (by decide))

/-- The instance of C2 at the sample snapshot and the request it yields. -/
theorem evalGC_allocs_all_or_nothing_witness :
    sampleSnapshot.Evals = .ok sampleEvals ∧
    RPCCall.EvalReap { Evals := ["e1"], Allocs := ["a1"], Region := "global" } ∈
      (evalGC sampleServer sampleSnapshot 10).2 ∧
    (∀ eid ∈ ["e1"], ∃ allocs, sampleSnapshot.AllocsByEval eid = .ok allocs ∧
      ∀ a ∈ allocs, a.ID ∈ ["a1"] ∧ a.TerminalStatus = true ∧ a.ModifyIndex ≤ 10) ∧
    (∀ allocs, sampleSnapshot.AllocsByEval "e2" = .ok allocs →
      ∀ a ∈ allocs, a.ID ∉ ["a1"]) :=
  have hreq : RPCCall.EvalReap { Evals := ["e1"], Allocs := ["a1"], Region := "global" } ∈
      (evalGC sampleServer sampleSnapshot 10).2 := by decide
  have hall := evalGC_allocs_all_or_nothing sampleServer sampleSnapshot 10 sampleEvals rfl
    { Evals := ["e1"], Allocs := ["a1"], Region := "global" } hreq
  ⟨rfl, hreq, hall.2.2.1,
    hall.2.2.2.2 sampleSnapshot_allocs_disjoint "e2" (by decide)⟩

/-! ## The scan of `nodeGC` -/

theorem nodeGCScan_eq (snap : StateSnapshot) (thr : Nat) (nodes : List Node) :
    ∀ gcNode : List String,
      nodeGCScan snap thr nodes gcNode =
        gcNode ++ (nodes.filter (nodeGCKeeps snap thr)).map (fun n => n.ID) := by
  induction nodes with
  | nil => intro gcNode; simp [nodeGCScan]
  | cons node rest ih =>
    intro gcNode
    unfold nodeGCScan
    by_cases h1 : (!node.TerminalStatus || decide (node.ModifyIndex > thr)) = true
    · have hk : nodeGCKeeps snap thr node = false := by simp [nodeGCKeeps, h1]
      simp only [h1, if_true, ih, List.filter_cons, hk]
      simp
    · simp only [h1, if_false]
      cases hl : snap.AllocsByNode node.ID with
      | error err =>
        have hk : nodeGCKeeps snap thr node = false := by simp [nodeGCKeeps, h1, hl]
        simp only [ih, List.filter_cons, hk]
        simp
      | ok allocs =>
        by_cases h2 : allocs.length > 0
        · have hk : nodeGCKeeps snap thr node = false := by
            simp only [nodeGCKeeps, h1, hl, h2]; simp
          simp only [h2, if_true, ih, List.filter_cons, hk]
          simp
        · have hk : nodeGCKeeps snap thr node = true := by
            simp only [nodeGCKeeps, h1, hl, h2]; simp
          simp only [h2, if_false, ih, List.filter_cons, hk, if_true, List.map_cons,
            List.append_assoc, List.singleton_append]
          simp

theorem nodeGCKeeps_iff (snap : StateSnapshot) (thr : Nat) (n : Node) :
    nodeGCKeeps snap thr n = true ↔
      n.TerminalStatus = true ∧ n.ModifyIndex ≤ thr ∧ snap.AllocsByNode n.ID = .ok [] := by
  unfold nodeGCKeeps
  by_cases h1 : (!n.TerminalStatus || decide (n.ModifyIndex > thr)) = true
  · simp only [h1, if_true]
    constructor
    · intro h; cases h
    · rintro ⟨ht, hm, _⟩
      simp [ht] at h1
      omega
  · simp only [h1, if_false]
    have h1b : n.TerminalStatus = true ∧ n.ModifyIndex ≤ thr := by
      simp at h1
      cases ht : n.TerminalStatus
      · simp [ht] at h1
      · exact ⟨rfl, by have := h1.2; omega⟩
    cases hl : snap.AllocsByNode n.ID with
    | error err =>
      constructor
      · intro h; cases h
      · rintro ⟨_, _, ha⟩; cases ha
    | ok allocs =>
      cases allocs with
      | nil => simp [h1b]
      | cons a rest => simp

theorem nodeGCReap_calls_mem (srv : Server) (ids : List String) :
    ∀ c ∈ (nodeGCReap srv ids).2,
      ∃ id ∈ ids, c = .NodeDeregister { NodeID := id, Region := srv.Region } := by
  induction ids with
  | nil => intro c hc; simp [nodeGCReap] at hc
  | cons id rest ih =>
    intro c hc
    unfold nodeGCReap at hc
    cases hr : srv.RPC (.NodeDeregister { NodeID := id, Region := srv.Region }) with
    | some err =>
      simp only [hr, List.mem_singleton] at hc
      exact ⟨id, List.mem_cons_self _ _, hc⟩
    | none =>
      simp only [hr, List.mem_cons] at hc
      rcases hc with hc | hc
      · exact ⟨id, List.mem_cons_self _ _, hc⟩
      · obtain ⟨id2, hid2, hc2⟩ := ih c hc
        exact ⟨id2, List.mem_cons_of_mem _ hid2, hc2⟩

theorem nodeGCReap_all_ok (srv : Server) (hok : ∀ c, srv.RPC c = none) (ids : List String) :
    nodeGCReap srv ids =
      (none, ids.map (fun id => .NodeDeregister { NodeID := id, Region := srv.Region })) := by
  induction ids with
  | nil => rfl
  | cons id rest ih =>
    unfold nodeGCReap
    simp only [hok, ih, List.map_cons]

theorem nodeGC_eq (srv : Server) (snap : StateSnapshot) (thr : Nat) (nodes : List Node)
    (h : snap.Nodes = .ok nodes) :
    nodeGC srv snap thr = nodeGCReap srv (nodeGCScan snap thr nodes []) := by
  unfold nodeGC
  simp only [h]
  split
  · rename_i hc
    have hnil : nodeGCScan snap thr nodes [] = [] := by simpa using hc
    rw [hnil]
    rfl
  · rfl

/-- C3. Node GC eligibility: a node id is selected by the scan of `nodeGC` if
and only if it is the id of a node of the snapshot that is terminal, has
`ModifyIndex <= oldThreshold` and whose lookup of allocations by node succeeds
with no allocation at all. Every deregister request `nodeGC` issues names a
selected node, and all selected nodes are requested when no request fails. In
particular a node whose lookup returns a single allocation, terminal or not,
is neither selected nor deregistered. -/
theorem nodeGC_node_eligibility (srv : Server) (snap : StateSnapshot) (oldThreshold : Nat)
    (nodes : List Node) (h : snap.Nodes = .ok nodes) :
    (∀ id, id ∈ nodeGCScan snap oldThreshold nodes [] ↔
      ∃ n ∈ nodes, n.ID = id ∧ n.TerminalStatus = true ∧ n.ModifyIndex ≤ oldThreshold ∧
        snap.AllocsByNode n.ID = .ok []) ∧
    (∀ req, RPCCall.NodeDeregister req ∈ (nodeGC srv snap oldThreshold).2 →
      req.NodeID ∈ nodeGCScan snap oldThreshold nodes []) ∧
    ((∀ c, srv.RPC c = none) →
      (nodeGC srv snap oldThreshold).2 =
        (nodeGCScan snap oldThreshold nodes []).map
          (fun id => .NodeDeregister { NodeID := id, Region := srv.Region })) ∧
    (∀ n ∈ nodes, ∀ a : Allocation, snap.AllocsByNode n.ID = .ok [a] →
      n.ID ∉ nodeGCScan snap oldThreshold nodes [] ∧
      ∀ req, RPCCall.NodeDeregister req ∈ (nodeGC srv snap oldThreshold).2 →
        req.NodeID ≠ n.ID) := by
  have hsel : ∀ id, id ∈ nodeGCScan snap oldThreshold nodes [] ↔
      ∃ n ∈ nodes, n.ID = id ∧ n.TerminalStatus = true ∧ n.ModifyIndex ≤ oldThreshold ∧
        snap.AllocsByNode n.ID = .ok [] := by
    intro id
    rw [nodeGCScan_eq, List.nil_append, List.mem_map]
    constructor
    · rintro ⟨n, hn, rfl⟩
      rw [List.mem_filter] at hn
      exact ⟨n, hn.1, rfl, (nodeGCKeeps_iff snap oldThreshold n).mp hn.2⟩
    · rintro ⟨n, hn, rfl, hk⟩
      exact ⟨n, List.mem_filter.mpr ⟨hn, (nodeGCKeeps_iff snap oldThreshold n).mpr hk⟩, rfl⟩
  have hcalls : ∀ req, RPCCall.NodeDeregister req ∈ (nodeGC srv snap oldThreshold).2 →
      req.NodeID ∈ nodeGCScan snap oldThreshold nodes [] := by
    intro req hreq
    rw [nodeGC_eq srv snap oldThreshold nodes h] at hreq
    obtain ⟨id, hid, hc⟩ := nodeGCReap_calls_mem srv _ _ hreq
    cases hc
    exact hid
  have hnot : ∀ n ∈ nodes, ∀ a : Allocation, snap.AllocsByNode n.ID = .ok [a] →
      n.ID ∉ nodeGCScan snap oldThreshold nodes [] := by
    intro n _ a hl hmem
    obtain ⟨n2, _, hid, _, _, hl2⟩ := (hsel n.ID).mp hmem
    rw [hid, hl] at hl2
    cases hl2
  refine ⟨hsel, hcalls, ?_, ?_⟩
  · intro hok
    rw [nodeGC_eq srv snap oldThreshold nodes h, nodeGCReap_all_ok srv hok]
  · intro n hn a hl
    refine ⟨hnot n hn a hl, ?_⟩
    intro req hreq heq
    exact hnot n hn a hl (heq ▸ hcalls req hreq)

/-- The instance of C3 at the sample snapshot and threshold 10. -/
theorem nodeGC_node_eligibility_witness :
    sampleSnapshot.Nodes = .ok sampleNodes ∧
    (∀ id, id ∈ nodeGCScan sampleSnapshot 10 sampleNodes [] ↔
      ∃ n ∈ sampleNodes, n.ID = id ∧ n.TerminalStatus = true ∧ n.ModifyIndex ≤ 10 ∧
        sampleSnapshot.AllocsByNode n.ID = .ok []) ∧
    (nodeGC sampleServer sampleSnapshot 10).2 =
        (nodeGCScan sampleSnapshot 10 sampleNodes []).map
          (fun id => .NodeDeregister { NodeID := id, Region := sampleServer.Region }) :=
  have hall := nodeGC_node_eligibility sampleServer sampleSnapshot 10 sampleNodes rfl
  ⟨rfl, hall.1, hall.2.2.1 (fun _ => rfl)⟩

/-- The node pass on the sample snapshot with threshold 10: node `n1`, terminal
and old without allocations, is deregistered; node `n2`, terminal and old but
referenced by one terminal allocation, is not. -/
theorem nodeGC_sample :
    nodeGC sampleServer sampleSnapshot 10 =
      (none, [.NodeDeregister { NodeID := "n1", Region := "global" }]) := by
  decide

/-! ## The service tracker: one call -/

/-- C4. A service tracker never refuses to restart: for every tracker state,
every exit code and every clock reading, `nextRestart` returns
`shouldRestart = true`. -/
theorem service_nextRestart_always_restarts (s : serviceRestartTracker) (exitCode : Int)
    (now now2 : Time) :
    (s.nextRestart exitCode now now2).1.1 = true := by
  unfold serviceRestartTracker.nextRestart
  simp only
  split_ifs <;> rfl

/-- The wait a service tracker returns is the policy delay on the two branches
that do not throttle and `windowEnd - now` on the throttling branch. -/
theorem service_nextRestart_wait (s : serviceRestartTracker) (exitCode : Int)
    (now now2 : Time) :
    (s.nextRestart exitCode now now2).1.2 =
      if now > s.startTime + s.interval ∨ s.count < s.maxAttempts then s.delay
      else s.startTime + s.interval - now := by
  unfold serviceRestartTracker.nextRestart
  simp only
  by_cases h1 : now > s.startTime + s.interval
  · simp [h1]
  · by_cases h2 : s.count < s.maxAttempts
    · simp [h1, h2]
    · simp [h1, h2]

/-- C5, as stated, fails. The tracker created for a service with interval 10s
and delay 20s returns the wait 20s on its first call, above the interval; and a throttled call whose
clock reading lies before the window start (interval 10s, window start at 100s,
reading 50s) returns 60s. -/
theorem service_wait_not_within_interval :
    newRestartTracker JobTypeService
        { Attempts := 2, Interval := 10 * second, Delay := 20 * second } 0 =
      .service sampleServiceLongDelay ∧
    (sampleServiceLongDelay.nextRestart 1 0 0).1.2 = 20 * second ∧
    ¬ ((sampleServiceLongDelay.nextRestart 1 0 0).1.2 ≤ sampleServiceLongDelay.interval) ∧
    (sampleServiceLateStart.nextRestart 1 (50 * second) (50 * second)).1.2 = 60 * second ∧
    ¬ ((sampleServiceLateStart.nextRestart 1 (50 * second) (50 * second)).1.2 ≤
        sampleServiceLateStart.interval) := by
  refine ⟨?_, ?_, ?_, ?_, ?_⟩ <;> decide

/-- C5, amended. For a service tracker whose delay satisfies
`0 <= delay <= interval`, and a clock reading not before the window start, the
wait `nextRestart` returns lies within `[0, interval]`. -/
theorem service_wait_within_interval (s : serviceRestartTracker) (exitCode : Int)
    (now now2 : Time) (hd0 : 0 ≤ s.delay) (hdi : s.delay ≤ s.interval)
    (hnow : s.startTime ≤ now) :
    0 ≤ (s.nextRestart exitCode now now2).1.2 ∧
      (s.nextRestart exitCode now now2).1.2 ≤ s.interval := by
  rw [service_nextRestart_wait]
  split_ifs with h
  · exact ⟨hd0, hdi⟩
  · have h1 : now ≤ s.startTime + s.interval := not_lt.mp (fun hc => h (Or.inl hc))
    constructor <;> linarith

/-- The instance of amended C5 at a throttled call: interval 10s, delay 1s,
budget used up, reading 3s after the window start; the wait is 7s. -/
theorem service_wait_within_interval_witness :
    0 ≤ sampleServiceExhausted.delay ∧
    sampleServiceExhausted.delay ≤ sampleServiceExhausted.interval ∧
    sampleServiceExhausted.startTime ≤ 3 * second ∧
    (0 ≤ (sampleServiceExhausted.nextRestart 1 (3 * second) (3 * second)).1.2 ∧
      (sampleServiceExhausted.nextRestart 1 (3 * second) (3 * second)).1.2 ≤
        sampleServiceExhausted.interval) :=
  ⟨by decide, by decide, by decide,
    service_wait_within_interval sampleServiceExhausted 1 (3 * second) (3 * second)
      (by decide) (by decide) (by decide)⟩

/-- The throttled call of the sample tracker waits 7s. -/
theorem service_wait_sample :
    sampleServiceExhausted.nextRestart 1 (3 * second) (3 * second) =
      ((true, 7 * second), { sampleServiceExhausted with count := 3 }) := by
  decide

/-- C7. Window reset of the service tracker: for every tracker state, whatever
its count, a call whose clock reading `now` lies strictly after
`windowStart + interval` returns `(true, delay)`, sets the window start to the
clock reading taken at the reset (`now` itself when the call reads the same
instant twice), and leaves the count at 1: it is reset to 0 and then
incremented by the deferred `increment`. The policy fields are unchanged. -/
theorem service_nextRestart_window_reset (s : serviceRestartTracker) (exitCode : Int)
    (now now2 : Time) (h : now > s.startTime + s.interval) :
    (s.nextRestart exitCode now now2).1 = (true, s.delay) ∧
    (s.nextRestart exitCode now now2).2.startTime = now2 ∧
    (s.nextRestart exitCode now now2).2.count = 1 ∧
    (s.nextRestart exitCode now now2).2 =
      ({ s with count := 0, startTime := now2 } : serviceRestartTracker).increment ∧
    (s.nextRestart exitCode now now).2.startTime = now ∧
    (s.nextRestart exitCode now now2).2.maxAttempts = s.maxAttempts ∧
    (s.nextRestart exitCode now now2).2.interval = s.interval ∧
    (s.nextRestart exitCode now now2).2.delay = s.delay := by
  unfold serviceRestartTracker.nextRestart
  simp only [h, if_true, serviceRestartTracker.increment]
  simp

/-- The instance of C7 at the sample tracker whose budget is used up, called
11s after the window start: the restart is granted after the base delay and a
fresh window opens. -/
theorem service_nextRestart_window_reset_witness :
    (11 * second > sampleServiceExhausted.startTime + sampleServiceExhausted.interval) ∧
    (sampleServiceExhausted.nextRestart 1 (11 * second) (11 * second)).1 =
      (true, sampleServiceExhausted.delay) ∧
    (sampleServiceExhausted.nextRestart 1 (11 * second) (11 * second)).2.startTime =
      11 * second ∧
    (sampleServiceExhausted.nextRestart 1 (11 * second) (11 * second)).2.count = 1 :=
  have hall := service_nextRestart_window_reset sampleServiceExhausted 1 (11 * second)
    (11 * second) (by decide)
  ⟨by decide, hall.1, hall.2.1, hall.2.2.1⟩

/-! ## The batch tracker: one call -/

/-- C8, as stated, fails. The exit code -1 is non-zero, yet a batch tracker
with attempts left refuses the restart and keeps its count. -/
theorem batch_nextRestart_negative_exit_refused :
    sampleBatch.count < sampleBatch.maxAttempts ∧ (-1 : Int) ≠ 0 ∧
    sampleBatch.nextRestart (-1) = ((false, 0), sampleBatch) ∧
    ¬ ((sampleBatch.nextRestart (-1)).1 = (true, sampleBatch.delay) ∧
        (sampleBatch.nextRestart (-1)).2.count = sampleBatch.count + 1) := by
  refine ⟨?_, ?_, ?_, ?_⟩ <;> decide

/-- C8, amended. For every batch tracker with `count < maxAttempts` and every
exit code greater than zero, `nextRestart` returns `(true, delay)` and
increases the count by exactly one, leaving `maxAttempts` and `delay` as they
were. -/
theorem batch_nextRestart_grant (b : batchRestartTracker) (exitCode : Int)
    (hc : b.count < b.maxAttempts) (he : exitCode > 0) :
    (b.nextRestart exitCode).1 = (true, b.delay) ∧
    (b.nextRestart exitCode).2.count = b.count + 1 ∧
    (b.nextRestart exitCode).2.maxAttempts = b.maxAttempts ∧
    (b.nextRestart exitCode).2.delay = b.delay := by
  unfold batchRestartTracker.nextRestart
  simp [hc, he, batchRestartTracker.increment]

/-- The instance of amended C8 at the sample batch tracker and exit code 1. -/
theorem batch_nextRestart_grant_witness :
    sampleBatch.count < sampleBatch.maxAttempts ∧ (1 : Int) > 0 ∧
    (sampleBatch.nextRestart 1).1 = (true, sampleBatch.delay) ∧
    (sampleBatch.nextRestart 1).2.count = sampleBatch.count + 1 :=
  have hall := batch_nextRestart_grant sampleBatch 1 (by decide) (by decide)
  ⟨by decide, by decide, hall.1, hall.2.1⟩

theorem batch_nextRestart_refuse (b : batchRestartTracker) (exitCode : Int)
    (h : exitCode ≤ 0 ∨ b.maxAttempts ≤ b.count) :
    b.nextRestart exitCode = ((false, 0), b) := by
  unfold batchRestartTracker.nextRestart
  have hf : (decide (b.count < b.maxAttempts) && decide (exitCode > 0)) = false := by
    rcases h with h | h
    · have : ¬ exitCode > 0 := not_lt.mpr h
      simp [this]
    · have : ¬ b.count < b.maxAttempts := not_lt.mpr h
      simp [this]
  simp [hf]

theorem batch_run_refuse (codes : List Int) :
    ∀ b : batchRestartTracker, b.maxAttempts ≤ b.count →
      b.run codes = (List.replicate codes.length (false, 0), b) := by
  induction codes with
  | nil => intro b _; rfl
  | cons e rest ih =>
    intro b hb
    unfold batchRestartTracker.run
    simp only [batch_nextRestart_refuse b e (Or.inr hb), ih b hb, List.length_cons,
      List.replicate_succ]

/-- C9. Batch refusal: `nextRestart` returns `(false, 0)`, and leaves the
tracker as it was, whenever the exit code is zero, whatever the count, and
whenever `count == maxAttempts`, whatever the exit code; and from a tracker
with `count == maxAttempts` every call of every later sequence of calls returns
`(false, 0)`, the tracker staying as it was. -/
theorem batch_nextRestart_refusal :
    (∀ b : batchRestartTracker, b.nextRestart 0 = ((false, 0), b)) ∧
    (∀ (b : batchRestartTracker) (exitCode : Int), b.count = b.maxAttempts →
      b.nextRestart exitCode = ((false, 0), b)) ∧
    (∀ (b : batchRestartTracker) (codes : List Int), b.count = b.maxAttempts →
      b.run codes = (List.replicate codes.length (false, 0), b) ∧
      ∀ r ∈ (b.run codes).1, r = (false, 0)) := by
  refine ⟨?_, ?_, ?_⟩
  · intro b
    exact batch_nextRestart_refuse b 0 (Or.inl (le_refl 0))
  · intro b exitCode h
    exact batch_nextRestart_refuse b exitCode (Or.inr (le_of_eq h.symm))
  · intro b codes h
    have hr := batch_run_refuse codes b (le_of_eq h.symm)
    refine ⟨hr, ?_⟩
    intro r hmem
    rw [hr] at hmem
    exact (List.mem_replicate.mp hmem).2

/-- The instance of C9 at the sample batch tracker whose attempts are used up,
for the exit codes 1, 0, 5. -/
theorem batch_nextRestart_refusal_witness :
    sampleBatchExhausted.count = sampleBatchExhausted.maxAttempts ∧
    sampleBatchExhausted.nextRestart 1 = ((false, 0), sampleBatchExhausted) ∧
    sampleBatchExhausted.run [1, 0, 5] =
      (List.replicate [1, 0, 5].length (false, 0), sampleBatchExhausted) :=
  ⟨by decide, batch_nextRestart_refusal.2.1 sampleBatchExhausted 1 (by decide),
    (batch_nextRestart_refusal.2.2 sampleBatchExhausted [1, 0, 5] (by decide)).1⟩

/-! ## The batch tracker: sequences of calls -/

theorem batch_nextRestart_step (b : batchRestartTracker) (exitCode : Int) :
    (b.nextRestart exitCode).2.maxAttempts = b.maxAttempts ∧
    (b.nextRestart exitCode).2.delay = b.delay ∧
    (b.nextRestart exitCode).2.count =
      b.count + (if (b.nextRestart exitCode).1.1 = true then 1 else 0) ∧
    (b.count ≤ b.maxAttempts → (b.nextRestart exitCode).2.count ≤ b.maxAttempts) := by
  unfold batchRestartTracker.nextRestart
  by_cases h : (decide (b.count < b.maxAttempts) && decide (exitCode > 0)) = true
  · have hlt : b.count < b.maxAttempts := by
      simp only [Bool.and_eq_true, decide_eq_true_eq] at h
      exact h.1
    simp only [h, if_true, batchRestartTracker.increment, true_and]
    intro _
    omega
  · simp only [h, if_false]
    refine ⟨rfl, rfl, ?_, fun hle => hle⟩
    simp

theorem batch_run_count (codes : List Int) :
    ∀ b : batchRestartTracker,
      (b.run codes).2.maxAttempts = b.maxAttempts ∧
      (b.run codes).2.count = b.count + (restartsGranted (b.run codes).1 : Int) ∧
      (b.count ≤ b.maxAttempts → (b.run codes).2.count ≤ b.maxAttempts) := by
  induction codes with
  | nil =>
    intro b
    simp [batchRestartTracker.run, restartsGranted]
  | cons e rest ih =>
    intro b
    obtain ⟨hm, _, hc, hle⟩ := batch_nextRestart_step b e
    obtain ⟨ihm, ihc, ihle⟩ := ih (b.nextRestart e).2
    unfold batchRestartTracker.run
    simp only
    refine ⟨by rw [ihm, hm], ?_, ?_⟩
    · rw [ihc, hc]
      unfold restartsGranted
      by_cases hg : (b.nextRestart e).1.1 = true
      · simp only [hg, if_true, List.filter_cons, List.length_cons]
        push_cast
        ring
      · simp only [hg, if_false, List.filter_cons]
        simp
    · intro hb
      rw [hm] at ihle
      exact ihle (hle hb)

theorem batch_run_length (codes : List Int) :
    ∀ b : batchRestartTracker, (b.run codes).1.length = codes.length := by
  induction codes with
  | nil => intro b; rfl
  | cons e rest ih =>
    intro b
    unfold batchRestartTracker.run
    simp [ih]

theorem batch_run_take (codes : List Int) :
    ∀ (b : batchRestartTracker) (k : Nat),
      (b.run (codes.take k)).1 = (b.run codes).1.take k := by
  induction codes with
  | nil => intro b k; simp [batchRestartTracker.run]
  | cons e rest ih =>
    intro b k
    cases k with
    | zero => simp [batchRestartTracker.run]
    | succ k =>
      simp only [List.take_succ_cons]
      unfold batchRestartTracker.run
      simp only [List.take_succ_cons, ih]

/-- C10. Lifetime bound of the batch tracker: a tracker freshly created by
`newRestartTracker` for a job type other than service, with
`maxAttempts >= 0`, is a batch tracker with count 0; and for every finite
sequence of exit codes, after each call (after the first `k` calls, for every
`k`) the count lies between 0 and `maxAttempts` and equals the number of calls
so far that returned `shouldRestart = true`, so that at most `maxAttempts`
restarts are granted over the whole sequence. -/
theorem batch_lifetime_bound (jobType : String) (restartPolicy : RestartPolicy) (now : Time)
    (hj : jobType ≠ JobTypeService) (hm : 0 ≤ restartPolicy.Attempts) (codes : List Int) :
    ∃ b0 : batchRestartTracker,
      newRestartTracker jobType restartPolicy now = .batch b0 ∧
      b0.count = 0 ∧ b0.maxAttempts = restartPolicy.Attempts ∧
      b0.delay = restartPolicy.Delay ∧
      (∀ k : Nat,
        (b0.run (codes.take k)).1 = (b0.run codes).1.take k ∧
        0 ≤ (b0.run (codes.take k)).2.count ∧
        (b0.run (codes.take k)).2.count ≤ restartPolicy.Attempts ∧
        (b0.run (codes.take k)).2.count =
          (restartsGranted ((b0.run codes).1.take k) : Int)) ∧
      (restartsGranted (b0.run codes).1 : Int) ≤ restartPolicy.Attempts := by
  refine ⟨{ maxAttempts := restartPolicy.Attempts, delay := restartPolicy.Delay, count := 0 },
    ?_, rfl, rfl, rfl, ?_, ?_⟩
  · unfold newRestartTracker
    simp [hj]
  · intro k
    obtain ⟨_, hc, hle⟩ := batch_run_count (codes.take k)
      { maxAttempts := restartPolicy.Attempts, delay := restartPolicy.Delay, count := 0 }
    simp only [zero_add] at hc
    refine ⟨batch_run_take codes _ k, ?_, hle hm, ?_⟩
    · rw [hc]; exact Int.natCast_nonneg _
    · rw [← batch_run_take]; exact hc
  · obtain ⟨_, hc, hle⟩ := batch_run_count codes
      { maxAttempts := restartPolicy.Attempts, delay := restartPolicy.Delay, count := 0 }
    simp only [zero_add] at hc
    rw [← hc]
    exact hle hm

/-- The instance of C10 for a batch job with two attempts and the exit codes
1, 0, 1, 1, 1. -/
theorem batch_lifetime_bound_witness :
    "batch" ≠ JobTypeService ∧
    (0 : Int) ≤ ({ Attempts := 2, Interval := 0, Delay := second } : RestartPolicy).Attempts ∧
    ∃ b0 : batchRestartTracker,
      newRestartTracker "batch" { Attempts := 2, Interval := 0, Delay := second } 0 =
        .batch b0 ∧
      b0.count = 0 ∧ b0.maxAttempts = 2 ∧ b0.delay = second ∧
      (∀ k : Nat,
        (b0.run ([1, 0, 1, 1, 1].take k)).1 = (b0.run [1, 0, 1, 1, 1]).1.take k ∧
        0 ≤ (b0.run ([1, 0, 1, 1, 1].take k)).2.count ∧
        (b0.run ([1, 0, 1, 1, 1].take k)).2.count ≤ 2 ∧
        (b0.run ([1, 0, 1, 1, 1].take k)).2.count =
          (restartsGranted ((b0.run [1, 0, 1, 1, 1]).1.take k) : Int)) ∧
      (restartsGranted (b0.run [1, 0, 1, 1, 1]).1 : Int) ≤ 2 :=
  ⟨by decide, by decide,
    batch_lifetime_bound "batch" { Attempts := 2, Interval := 0, Delay := second } 0
      (by decide) (by decide) [1, 0, 1, 1, 1]⟩

/-- A batch tracker with two attempts fed the exit codes 1, 0, 1, 1, 1 grants
the first and the third call and refuses the others. -/
theorem batch_run_sample :
    ({ maxAttempts := 2, delay := second, count := 0 } : batchRestartTracker).run
        [1, 0, 1, 1, 1] =
      ([(true, second), (false, 0), (true, second), (false, 0), (false, 0)],
        { maxAttempts := 2, delay := second, count := 2 }) := by
  decide

/-! ## The service tracker: sequences of calls -/

theorem service_nextRestart_open (s : serviceRestartTracker) (exitCode : Int)
    (now now2 : Time) (h : now ≤ s.startTime + s.interval) :
    s.nextRestart exitCode now now2 =
      ((true, if s.count < s.maxAttempts then s.delay else s.startTime + s.interval - now),
        s.increment) := by
  unfold serviceRestartTracker.nextRestart
  have h1 : ¬ now > s.startTime + s.interval := not_lt.mpr h
  simp only [h1, if_false]
  split_ifs <;> rfl

theorem service_run_open_window (calls : List ServiceCall) :
    ∀ s : serviceRestartTracker, (∀ c ∈ calls, c.now ≤ s.startTime + s.interval) →
      (s.run calls).1.length = calls.length ∧
      ∀ (i : Nat) (c : ServiceCall), calls[i]? = some c →
        (s.run calls).1[i]? =
          some (if s.count + (i : Int) < s.maxAttempts then (true, s.delay)
            else (true, s.startTime + s.interval - c.now)) := by
  induction calls with
  | nil =>
    intro s _
    refine ⟨rfl, ?_⟩
    intro i c hc
    simp at hc
  | cons c0 rest ih =>
    intro s hall
    have h0 : c0.now ≤ s.startTime + s.interval := hall c0 (List.mem_cons_self _ _)
    have hstep := service_nextRestart_open s c0.exitCode c0.now c0.now2 h0
    have hrest : ∀ c ∈ rest, c.now ≤ s.increment.startTime + s.increment.interval :=
      fun c hc => hall c (List.mem_cons_of_mem _ hc)
    obtain ⟨ihl, ihi⟩ := ih s.increment hrest
    unfold serviceRestartTracker.run
    simp only [hstep]
    refine ⟨by simp [ihl], ?_⟩
    intro i c hc
    cases i with
    | zero =>
      simp only [List.getElem?_cons_zero, Option.some.injEq] at hc
      subst hc
      simp only [List.getElem?_cons_zero, Nat.cast_zero, add_zero]
      split_ifs <;> rfl
    | succ j =>
      simp only [List.getElem?_cons_succ] at hc ⊢
      rw [ihi j c hc]
      have hcount : s.increment.count + (j : Int) = s.count + ((j + 1 : Nat) : Int) := by
        simp only [serviceRestartTracker.increment]
        push_cast
        ring
      rw [hcount]
      rfl

/-- C6. Window semantics of the service tracker: the tracker
`newRestartTracker` creates for a service at the instant `t0` has count 0 and
window start `t0`; and for any sequence of `nextRestart` calls whose clock
readings are all not after `windowStart + interval`, every call returns one
pair, the first `maxAttempts` calls return `(true, delay)` and each later call
returns `(true, windowEnd - now)` with `windowEnd = windowStart + interval` and
`now` the clock reading of that call. -/
theorem service_window_semantics (restartPolicy : RestartPolicy) (t0 : Time)
    (calls : List ServiceCall) (h : ∀ c ∈ calls, c.now ≤ t0 + restartPolicy.Interval) :
    ∃ s0 : serviceRestartTracker,
      newRestartTracker JobTypeService restartPolicy t0 = .service s0 ∧
      s0.count = 0 ∧ s0.startTime = t0 ∧ s0.maxAttempts = restartPolicy.Attempts ∧
      s0.interval = restartPolicy.Interval ∧ s0.delay = restartPolicy.Delay ∧
      (s0.run calls).1.length = calls.length ∧
      ∀ (i : Nat) (c : ServiceCall), calls[i]? = some c →
        (s0.run calls).1[i]? =
          some (if (i : Int) < restartPolicy.Attempts then (true, restartPolicy.Delay)
            else (true, t0 + restartPolicy.Interval - c.now)) := by
  refine ⟨{ maxAttempts := restartPolicy.Attempts, startTime := t0,
            interval := restartPolicy.Interval, delay := restartPolicy.Delay, count := 0 },
    ?_, rfl, rfl, rfl, rfl, rfl, ?_⟩
  · unfold newRestartTracker
    simp
  · obtain ⟨hl, hi⟩ := service_run_open_window calls
      { maxAttempts := restartPolicy.Attempts, startTime := t0,
        interval := restartPolicy.Interval, delay := restartPolicy.Delay, count := 0 } h
    refine ⟨hl, ?_⟩
    intro i c hc
    have := hi i c hc
    simp only [zero_add] at this
    exact this

/-- The instance of C6 at the window example: two attempts, interval 10s, delay
1s, three calls at the instant of creation. -/
theorem service_window_semantics_witness :
    (∀ c ∈ sampleImmediateCalls, c.now ≤ 0 + samplePolicy.Interval) ∧
    ∃ s0 : serviceRestartTracker,
      newRestartTracker JobTypeService samplePolicy 0 = .service s0 ∧
      s0.count = 0 ∧ s0.startTime = 0 ∧ s0.maxAttempts = samplePolicy.Attempts ∧
      s0.interval = samplePolicy.Interval ∧ s0.delay = samplePolicy.Delay ∧
      (s0.run sampleImmediateCalls).1.length = sampleImmediateCalls.length ∧
      ∀ (i : Nat) (c : ServiceCall), sampleImmediateCalls[i]? = some c →
        (s0.run sampleImmediateCalls).1[i]? =
          some (if (i : Int) < samplePolicy.Attempts then (true, samplePolicy.Delay)
            else (true, 0 + samplePolicy.Interval - c.now)) :=
  ⟨by decide, service_window_semantics samplePolicy 0 sampleImmediateCalls (by decide)⟩

/-- The window example evaluated: calls 1 and 2 return `(true, 1s)`, call 3
returns `(true, 10s)`, and the count is 3 afterwards. -/
theorem service_window_sample :
    newRestartTracker JobTypeService samplePolicy 0 =
      .service { maxAttempts := 2, delay := second, interval := 10 * second, count := 0,
                 startTime := 0 } ∧
    ({ maxAttempts := 2, delay := second, interval := 10 * second, count := 0,
       startTime := 0 } : serviceRestartTracker).run sampleImmediateCalls =
      ([(true, second), (true, second), (true, 10 * second)],
        { maxAttempts := 2, delay := second, interval := 10 * second, count := 3,
          startTime := 0 }) := by
  constructor <;> decide

/-! ## The trackers behind the interface -/

/-- C11. The service tracker ignores the exit code: for every tracker state,
every clock reading and every two exit codes, `nextRestart` returns the same
pair and leaves the tracker in the same state. -/
theorem service_nextRestart_ignores_exit_code (s : serviceRestartTracker) (e1 e2 : Int)
    (now now2 : Time) :
    s.nextRestart e1 now now2 = s.nextRestart e2 now now2 ∧
    (s.nextRestart e1 now now2).1 = (s.nextRestart e2 now now2).1 ∧
    (s.nextRestart e1 now now2).2 = (s.nextRestart e2 now now2).2 := by
  have h : s.nextRestart e1 now now2 = s.nextRestart e2 now now2 := by
    unfold serviceRestartTracker.nextRestart
    rfl
  exact ⟨h, by rw [h], by rw [h]⟩

theorem noRestartsTracker_step (exitCode : Int) (now now2 : Time) :
    noRestartsTracker.nextRestart exitCode now now2 = ((false, 0), noRestartsTracker) := by
  unfold noRestartsTracker restartTracker.nextRestart
  simp only
  rw [batch_nextRestart_refuse _ exitCode (Or.inr (le_refl (0 : Int)))]

/-- C12. The tracker `noRestartsTracker` produces returns `(false, 0)` on every
call, for every exit code and after every finite sequence of earlier calls, and
never changes: a sequence of calls returns only `(false, 0)` and ends in the
tracker it started from, and so does one more call after it. -/
theorem noRestartsTracker_never_restarts :
    noRestartsTracker = .batch { maxAttempts := 0, delay := 0, count := 0 } ∧
    (∀ (exitCode : Int) (now now2 : Time),
      noRestartsTracker.nextRestart exitCode now now2 = ((false, 0), noRestartsTracker)) ∧
    (∀ calls : List ServiceCall,
      noRestartsTracker.run calls =
        (List.replicate calls.length (false, 0), noRestartsTracker)) ∧
    (∀ (calls : List ServiceCall) (exitCode : Int) (now now2 : Time),
      (noRestartsTracker.run calls).2.nextRestart exitCode now now2 =
        ((false, 0), noRestartsTracker)) := by
  have hrun : ∀ calls : List ServiceCall,
      noRestartsTracker.run calls =
        (List.replicate calls.length (false, 0), noRestartsTracker) := by
    intro calls
    induction calls with
    | nil => rfl
    | cons c rest ih =>
      unfold restartTracker.run
      simp only [noRestartsTracker_step, ih, List.length_cons, List.replicate_succ]
  refine ⟨rfl, noRestartsTracker_step, hrun, ?_⟩
  intro calls exitCode now now2
  rw [hrun]
  exact noRestartsTracker_step exitCode now now2

/-! ## The writes of the two passes -/

theorem evalGC_of_scan_nil (srv : Server) (snap : StateSnapshot) (thr : Nat)
    (evals : List Evaluation) (h : snap.Evals = .ok evals)
    (hs : evalGCScan snap thr evals ([], []) = ([], [])) :
    evalGC srv snap thr = (none, []) := by
  unfold evalGC
  simp only [h, hs]
  rfl

theorem evalGC_error_is_rpc_error (srv : Server) (snap : StateSnapshot) (thr : Nat)
    (evals : List Evaluation) (h : snap.Evals = .ok evals) :
    (evalGC srv snap thr).1 = none ∨
      ∃ c ∈ (evalGC srv snap thr).2, (evalGC srv snap thr).1 = srv.RPC c := by
  unfold evalGC
  simp only [h]
  split
  · left; rfl
  · split
    · rename_i err hr
      right
      exact ⟨_, List.mem_singleton.mpr rfl, hr.symm⟩
    · left; rfl

/-- C13. Write count of the evaluation pass: when the evaluation iteration
succeeds, `evalGC` issues no RPC and returns no error if the scan found neither
an evaluation nor an allocation to collect, in particular on a snapshot
without evaluations; otherwise it issues exactly one `Eval.Reap` request that
carries all the evaluation ids and allocation ids the scan found, and returns
the outcome of that request: no error if it succeeds, its error if it fails. -/
theorem evalGC_write_count (srv : Server) (snap : StateSnapshot) (oldThreshold : Nat)
    (evals : List Evaluation) (h : snap.Evals = .ok evals) :
    ((evalGCScan snap oldThreshold evals ([], [])).1 = [] ∧
        (evalGCScan snap oldThreshold evals ([], [])).2 = [] →
      evalGC srv snap oldThreshold = (none, [])) ∧
    (evals = [] → evalGC srv snap oldThreshold = (none, [])) ∧
    (¬ ((evalGCScan snap oldThreshold evals ([], [])).1 = [] ∧
        (evalGCScan snap oldThreshold evals ([], [])).2 = []) →
      evalGC srv snap oldThreshold =
        (srv.RPC (.EvalReap
            { Evals := (evalGCScan snap oldThreshold evals ([], [])).1
              Allocs := (evalGCScan snap oldThreshold evals ([], [])).2
              Region := srv.Region }),
          [.EvalReap
            { Evals := (evalGCScan snap oldThreshold evals ([], [])).1
              Allocs := (evalGCScan snap oldThreshold evals ([], [])).2
              Region := srv.Region }])) := by
  have hempty : (evalGCScan snap oldThreshold evals ([], [])).1 = [] ∧
        (evalGCScan snap oldThreshold evals ([], [])).2 = [] →
      evalGC srv snap oldThreshold = (none, []) := by
    rintro ⟨h1, h2⟩
    unfold evalGC
    simp only [h]
    simp [h1, h2]
  refine ⟨hempty, ?_, ?_⟩
  · intro he
    apply hempty
    subst he
    exact ⟨rfl, rfl⟩
  · intro hne
    unfold evalGC
    simp only [h]
    have hc : ((evalGCScan snap oldThreshold evals ([], [])).1.length == 0 &&
        (evalGCScan snap oldThreshold evals ([], [])).2.length == 0) = false := by
      by_contra hcon
      simp only [Bool.not_eq_false, Bool.and_eq_true, beq_iff_eq, List.length_eq_zero] at hcon
      exact hne hcon
    simp only [hc]
    cases hr : srv.RPC (.EvalReap
        { Evals := (evalGCScan snap oldThreshold evals ([], [])).1
          Allocs := (evalGCScan snap oldThreshold evals ([], [])).2
          Region := srv.Region }) with
    | none => simp [hr]
    | some err => simp [hr]

/-- The instance of C13 at the sample snapshot and threshold 10. -/
theorem evalGC_write_count_witness :
    sampleSnapshot.Evals = .ok sampleEvals ∧
    (sampleEvals = [] → evalGC sampleServer sampleSnapshot 10 = (none, [])) ∧
    (¬ ((evalGCScan sampleSnapshot 10 sampleEvals ([], [])).1 = [] ∧
        (evalGCScan sampleSnapshot 10 sampleEvals ([], [])).2 = []) →
      evalGC sampleServer sampleSnapshot 10 =
        (sampleServer.RPC (.EvalReap
            { Evals := (evalGCScan sampleSnapshot 10 sampleEvals ([], [])).1
              Allocs := (evalGCScan sampleSnapshot 10 sampleEvals ([], [])).2
              Region := sampleServer.Region }),
          [.EvalReap
            { Evals := (evalGCScan sampleSnapshot 10 sampleEvals ([], [])).1
              Allocs := (evalGCScan sampleSnapshot 10 sampleEvals ([], [])).2
              Region := sampleServer.Region }])) :=
  have hall := evalGC_write_count sampleServer sampleSnapshot 10 sampleEvals rfl
  ⟨rfl, hall.2.1, hall.2.2⟩

/-- The evaluation pass on the sample snapshot when the write path is down: the
one request is issued and its error is the error of the pass. -/
theorem evalGC_sample_write_fails :
    evalGC sampleFailingServer sampleSnapshot 10 =
      (some "no leader",
        [.EvalReap { Evals := ["e1"], Allocs := ["a1"], Region := "global" }]) := by
  decide

theorem nodeGCReap_stops (srv : Server) (pre : List String) :
    ∀ (id : String) (post : List String) (err : String),
      (∀ x ∈ pre, srv.RPC (.NodeDeregister { NodeID := x, Region := srv.Region }) = none) →
      srv.RPC (.NodeDeregister { NodeID := id, Region := srv.Region }) = some err →
      nodeGCReap srv (pre ++ id :: post) =
        (some err, (pre ++ [id]).map
          (fun x => .NodeDeregister { NodeID := x, Region := srv.Region })) := by
  induction pre with
  | nil =>
    intro id post err _ hf
    simp only [List.nil_append, List.map_cons, List.map_nil]
    unfold nodeGCReap
    simp only [hf]
  | cons p rest ih =>
    intro id post err hok hf
    have hp : srv.RPC (.NodeDeregister { NodeID := p, Region := srv.Region }) = none :=
      hok p (List.mem_cons_self _ _)
    have hrest := ih id post err (fun x hx => hok x (List.mem_cons_of_mem _ hx)) hf
    simp only [List.cons_append, List.map_cons]
    unfold nodeGCReap
    simp only [hp, hrest]

theorem nodeGCReap_no_failure (srv : Server) (ids : List String) :
    (∀ id ∈ ids, srv.RPC (.NodeDeregister { NodeID := id, Region := srv.Region }) = none) →
      nodeGCReap srv ids =
        (none, ids.map (fun x => .NodeDeregister { NodeID := x, Region := srv.Region })) := by
  induction ids with
  | nil => intro _; rfl
  | cons p rest ih =>
    intro hok
    have hp : srv.RPC (.NodeDeregister { NodeID := p, Region := srv.Region }) = none :=
      hok p (List.mem_cons_self _ _)
    have hrest := ih (fun x hx => hok x (List.mem_cons_of_mem _ hx))
    simp only [List.map_cons]
    unfold nodeGCReap
    simp only [hp, hrest]

/-- C14. Sequential fail-fast of the node pass. When the node iteration
succeeds, `nodeGC` runs the reap loop on the node ids its scan selected, which
are the ids of the eligible nodes in iteration order. For every list of node
ids and every outcome function of the RPC: with no id, no request is issued
and no error returned; when no request fails, one request per id is issued, in
order, and no error returned; and when the request of some id is the first to
fail, the requests issued are those of the ids up to and including that one,
in order, and the error returned is the error of that request. -/
theorem nodeGC_reap_fail_fast (srv : Server) :
    (∀ (snap : StateSnapshot) (oldThreshold : Nat) (nodes : List Node),
      snap.Nodes = .ok nodes →
      nodeGC srv snap oldThreshold = nodeGCReap srv (nodeGCScan snap oldThreshold nodes []) ∧
      nodeGCScan snap oldThreshold nodes [] =
        (nodes.filter (nodeGCKeeps snap oldThreshold)).map (fun n => n.ID)) ∧
    nodeGCReap srv [] = (none, []) ∧
    (∀ ids : List String,
      (∀ id ∈ ids, srv.RPC (.NodeDeregister { NodeID := id, Region := srv.Region }) = none) →
      nodeGCReap srv ids =
        (none, ids.map (fun x => .NodeDeregister { NodeID := x, Region := srv.Region }))) ∧
    (∀ (pre : List String) (id : String) (post : List String) (err : String),
      (∀ x ∈ pre, srv.RPC (.NodeDeregister { NodeID := x, Region := srv.Region }) = none) →
      srv.RPC (.NodeDeregister { NodeID := id, Region := srv.Region }) = some err →
      nodeGCReap srv (pre ++ id :: post) =
        (some err, (pre ++ [id]).map
          (fun x => .NodeDeregister { NodeID := x, Region := srv.Region }))) := by
  refine ⟨?_, rfl, nodeGCReap_no_failure srv, nodeGCReap_stops srv⟩
  intro snap oldThreshold nodes h
  refine ⟨nodeGC_eq srv snap oldThreshold nodes h, ?_⟩
  rw [nodeGCScan_eq, List.nil_append]

/-- The instance of C14 at three node ids of which the second is refused: the
requests issued are those of the first two ids and the refusal is returned. -/
theorem nodeGC_reap_fail_fast_witness :
    (∀ x ∈ ["n1"], sampleServerFailsN2.RPC
        (.NodeDeregister { NodeID := x, Region := sampleServerFailsN2.Region }) = none) ∧
    sampleServerFailsN2.RPC
        (.NodeDeregister { NodeID := "n2", Region := sampleServerFailsN2.Region }) =
      some "deregister failed" ∧
    nodeGCReap sampleServerFailsN2 (["n1"] ++ "n2" :: ["n3"]) =
      (some "deregister failed", (["n1"] ++ ["n2"]).map
        (fun x => .NodeDeregister { NodeID := x, Region := sampleServerFailsN2.Region })) :=
  ⟨by decide, by decide,
    (nodeGC_reap_fail_fast sampleServerFailsN2).2.2.2 ["n1"] "n2" ["n3"] "deregister failed"
      (by decide) (by decide)⟩

/-- The reap loop on three node ids of which the second is refused, evaluated:
`n3` is never requested. -/
theorem nodeGCReap_sample :
    nodeGCReap sampleServerFailsN2 ["n1", "n2", "n3"] =
      (some "deregister failed",
        [.NodeDeregister { NodeID := "n1", Region := "global" },
         .NodeDeregister { NodeID := "n2", Region := "global" }]) := by
  decide

/-! ## Read failures -/

theorem evalGCKeeps_congr (snap1 snap2 : StateSnapshot) (thr : Nat)
    (h : snap1.AllocsByEval = snap2.AllocsByEval) :
    evalGCKeeps snap1 thr = evalGCKeeps snap2 thr := by
  funext e
  unfold evalGCKeeps
  rw [h]

theorem evalGCScan_congr (snap1 snap2 : StateSnapshot) (thr : Nat)
    (h : snap1.AllocsByEval = snap2.AllocsByEval) (evals : List Evaluation)
    (acc : List String × List String) :
    evalGCScan snap1 thr evals acc = evalGCScan snap2 thr evals acc := by
  obtain ⟨gcEval, gcAlloc⟩ := acc
  have ha : allocIDsByEval snap1 = allocIDsByEval snap2 := by
    funext id
    unfold allocIDsByEval
    rw [h]
  rw [evalGCScan_eq, evalGCScan_eq, evalGCKeeps_congr snap1 snap2 thr h]
  simp only [ha]

theorem nodeGCScan_congr (snap1 snap2 : StateSnapshot) (thr : Nat)
    (h : snap1.AllocsByNode = snap2.AllocsByNode) (nodes : List Node) (acc : List String) :
    nodeGCScan snap1 thr nodes acc = nodeGCScan snap2 thr nodes acc := by
  have hk : nodeGCKeeps snap1 thr = nodeGCKeeps snap2 thr := by
    funext n
    unfold nodeGCKeeps
    rw [h]
  rw [nodeGCScan_eq, nodeGCScan_eq, hk]

theorem nodeGCReap_error_is_rpc_error (srv : Server) (ids : List String) :
    (nodeGCReap srv ids).1 = none ∨
      ∃ c ∈ (nodeGCReap srv ids).2, (nodeGCReap srv ids).1 = srv.RPC c := by
  induction ids with
  | nil => left; rfl
  | cons id rest ih =>
    unfold nodeGCReap
    cases hr : srv.RPC (.NodeDeregister { NodeID := id, Region := srv.Region }) with
    | some err =>
      right
      simp only [hr]
      exact ⟨_, List.mem_singleton.mpr rfl, hr.symm⟩
    | none =>
      simp only [hr]
      rcases ih with ih | ⟨c, hc, he⟩
      · left; exact ih
      · right; exact ⟨c, List.mem_cons_of_mem _ hc, he⟩

theorem evalGC_congr (srv : Server) (snap1 snap2 : StateSnapshot) (thr : Nat)
    (evals1 evals2 : List Evaluation) (h1 : snap1.Evals = .ok evals1)
    (h2 : snap2.Evals = .ok evals2)
    (hs : evalGCScan snap1 thr evals1 ([], []) = evalGCScan snap2 thr evals2 ([], [])) :
    evalGC srv snap1 thr = evalGC srv snap2 thr := by
  unfold evalGC
  simp only [h1, h2, hs]

theorem nodeGC_congr (srv : Server) (snap1 snap2 : StateSnapshot) (thr : Nat)
    (nodes1 nodes2 : List Node) (h1 : snap1.Nodes = .ok nodes1)
    (h2 : snap2.Nodes = .ok nodes2)
    (hs : nodeGCScan snap1 thr nodes1 [] = nodeGCScan snap2 thr nodes2 []) :
    nodeGC srv snap1 thr = nodeGC srv snap2 thr := by
  rw [nodeGC_eq srv snap1 thr nodes1 h1, nodeGC_eq srv snap2 thr nodes2 h2, hs]

/-- C16. A failing lookup skips one record and nothing else. In the evaluation
pass, when the lookup of allocations fails for an evaluation of the snapshot,
its id is not collected, the scan yields what it yields on the snapshot without
that evaluation, the whole pass (error and requests issued) is the pass on that
smaller snapshot, and an error of the pass, if any, is the error of a request
it issued, never the lookup failure as such. The same holds in the node pass
for a node whose lookup of allocations fails. -/
theorem lookup_failure_skips_record (srv : Server) (snap : StateSnapshot) (oldThreshold : Nat) :
    (∀ (pre : List Evaluation) (e : Evaluation) (post : List Evaluation) (err : String),
      snap.Evals = .ok (pre ++ e :: post) → snap.AllocsByEval e.ID = .error err →
        e.ID ∉ (evalGCScan snap oldThreshold (pre ++ e :: post) ([], [])).1 ∧
        evalGCScan snap oldThreshold (pre ++ e :: post) ([], []) =
          evalGCScan snap oldThreshold (pre ++ post) ([], []) ∧
        evalGC srv snap oldThreshold =
          evalGC srv { snap with Evals := .ok (pre ++ post) } oldThreshold ∧
        ((evalGC srv snap oldThreshold).1 = none ∨
          ∃ c ∈ (evalGC srv snap oldThreshold).2,
            (evalGC srv snap oldThreshold).1 = srv.RPC c)) ∧
    (∀ (pre : List Node) (n : Node) (post : List Node) (err : String),
      snap.Nodes = .ok (pre ++ n :: post) → snap.AllocsByNode n.ID = .error err →
        n.ID ∉ nodeGCScan snap oldThreshold (pre ++ n :: post) [] ∧
        nodeGCScan snap oldThreshold (pre ++ n :: post) [] =
          nodeGCScan snap oldThreshold (pre ++ post) [] ∧
        nodeGC srv snap oldThreshold =
          nodeGC srv { snap with Nodes := .ok (pre ++ post) } oldThreshold ∧
        ((nodeGC srv snap oldThreshold).1 = none ∨
          ∃ c ∈ (nodeGC srv snap oldThreshold).2,
            (nodeGC srv snap oldThreshold).1 = srv.RPC c)) := by
  constructor
  · intro pre e post err h hl
    have hk : evalGCKeeps snap oldThreshold e = false := by
      unfold evalGCKeeps
      simp only [hl]
      split_ifs <;> rfl
    have hscan : evalGCScan snap oldThreshold (pre ++ e :: post) ([], []) =
        evalGCScan snap oldThreshold (pre ++ post) ([], []) := by
      rw [evalGCScan_eq, evalGCScan_eq]
      simp only [List.filter_append, List.filter_cons, hk]
      simp
    refine ⟨?_, hscan, ?_, evalGC_error_is_rpc_error srv snap oldThreshold _ h⟩
    · intro hmem
      rw [evalGCScan_eq, List.nil_append, List.mem_map] at hmem
      obtain ⟨e2, he2, hid⟩ := hmem
      obtain ⟨_, _, allocs, hl2, _⟩ :=
        (evalGCKeeps_iff snap oldThreshold e2).mp (List.mem_filter.mp he2).2
      rw [hid, hl] at hl2
      cases hl2
    · refine evalGC_congr srv snap _ oldThreshold _ _ h rfl ?_
      rw [hscan]
      exact evalGCScan_congr snap { snap with Evals := .ok (pre ++ post) } oldThreshold rfl _ _
  · intro pre n post err h hl
    have hk : nodeGCKeeps snap oldThreshold n = false := by
      unfold nodeGCKeeps
      simp only [hl]
      split_ifs <;> rfl
    have hscan : nodeGCScan snap oldThreshold (pre ++ n :: post) [] =
        nodeGCScan snap oldThreshold (pre ++ post) [] := by
      rw [nodeGCScan_eq, nodeGCScan_eq]
      simp only [List.filter_append, List.filter_cons, hk]
      simp
    refine ⟨?_, hscan, ?_, ?_⟩
    · intro hmem
      rw [nodeGCScan_eq, List.nil_append, List.mem_map] at hmem
      obtain ⟨n2, hn2, hid⟩ := hmem
      obtain ⟨_, _, hl2⟩ :=
        (nodeGCKeeps_iff snap oldThreshold n2).mp (List.mem_filter.mp hn2).2
      rw [hid, hl] at hl2
      cases hl2
    · refine nodeGC_congr srv snap _ oldThreshold _ _ h rfl ?_
      rw [hscan]
      exact nodeGCScan_congr snap { snap with Nodes := .ok (pre ++ post) } oldThreshold rfl _ _
    · rw [nodeGC_eq srv snap oldThreshold _ h]
      exact nodeGCReap_error_is_rpc_error srv _

/-- The instance of C16 at the sample snapshot with failing lookups: evaluation
`e1` and node `n1` are skipped and the passes go on. -/
theorem lookup_failure_skips_record_witness :
    sampleFailingSnapshot.Evals =
      .ok ([] ++ { ID := "e1", JobID := "j", ModifyIndex := 5, TerminalStatus := true } ::
        [{ ID := "e2", JobID := "j", ModifyIndex := 6, TerminalStatus := true }]) ∧
    sampleFailingSnapshot.AllocsByEval "e1" = .error "lookup failed" ∧
    evalGC sampleServer sampleFailingSnapshot 10 =
      evalGC sampleServer
        { sampleFailingSnapshot with
          Evals := .ok ([] ++
            [{ ID := "e2", JobID := "j", ModifyIndex := 6, TerminalStatus := true }]) } 10 ∧
    sampleFailingSnapshot.Nodes =
      .ok ([] ++ { ID := "n1", ModifyIndex := 2, TerminalStatus := true } ::
        [{ ID := "n2", ModifyIndex := 3, TerminalStatus := true }]) ∧
    sampleFailingSnapshot.AllocsByNode "n1" = .error "lookup failed" ∧
    nodeGC sampleServer sampleFailingSnapshot 10 =
      nodeGC sampleServer
        { sampleFailingSnapshot with
          Nodes := .ok ([] ++ [{ ID := "n2", ModifyIndex := 3, TerminalStatus := true }]) } 10 :=
  have hall := lookup_failure_skips_record sampleServer sampleFailingSnapshot 10
  ⟨rfl, rfl,
    (hall.1 [] { ID := "e1", JobID := "j", ModifyIndex := 5, TerminalStatus := true }
      [{ ID := "e2", JobID := "j", ModifyIndex := 6, TerminalStatus := true }]
      "lookup failed" rfl rfl).2.2.1,
    rfl, rfl,
    (hall.2 [] { ID := "n1", ModifyIndex := 2, TerminalStatus := true }
      [{ ID := "n2", ModifyIndex := 3, TerminalStatus := true }]
      "lookup failed" rfl rfl).2.2.1⟩

/-- C17, as stated, fails. On the sample snapshot the lookups of evaluation `e1`
and of node `n1` fail, yet neither pass is aborted nor returns the read error:
the evaluation pass issues the delete request for `e2`, the node pass
deregisters `n2`, and both return no error. -/
theorem lookup_failure_does_not_abort :
    sampleFailingSnapshot.AllocsByEval "e1" = .error "lookup failed" ∧
    evalGC sampleServer sampleFailingSnapshot 10 =
      (none, [.EvalReap { Evals := ["e2"], Allocs := [], Region := "global" }]) ∧
    sampleFailingSnapshot.AllocsByNode "n1" = .error "lookup failed" ∧
    nodeGC sampleServer sampleFailingSnapshot 10 =
      (none, [.NodeDeregister { NodeID := "n2", Region := "global" }]) := by
  refine ⟨rfl, ?_, rfl, ?_⟩ <;> decide

/-- C17, amended. A failing iteration aborts the pass: when the iteration over
the evaluations fails, `evalGC` issues no RPC and returns the read error; when
the iteration over the nodes fails, `nodeGC` issues no RPC and returns the read
error. -/
theorem iteration_failure_aborts (srv : Server) (snap : StateSnapshot) (oldThreshold : Nat)
    (err : String) :
    (snap.Evals = .error err → evalGC srv snap oldThreshold = (some err, [])) ∧
    (snap.Nodes = .error err → nodeGC srv snap oldThreshold = (some err, [])) := by
  constructor
  · intro h
    unfold evalGC
    simp only [h]
  · intro h
    unfold nodeGC
    simp only [h]

/-- The instance of amended C17 at the sample snapshot whose iterations fail. -/
theorem iteration_failure_aborts_witness :
    sampleBrokenSnapshot.Evals = .error "no evals table" ∧
    evalGC sampleServer sampleBrokenSnapshot 10 = (some "no evals table", []) ∧
    sampleBrokenSnapshot.Nodes = .error "no nodes table" ∧
    nodeGC sampleServer sampleBrokenSnapshot 10 = (some "no nodes table", []) :=
  ⟨rfl, (iteration_failure_aborts sampleServer sampleBrokenSnapshot 10 "no evals table").1 rfl,
    rfl, (iteration_failure_aborts sampleServer sampleBrokenSnapshot 10 "no nodes table").2 rfl⟩

/-! ## Dispatch -/

/-- C18. Dispatch of the core scheduler: `Process` returns exactly the result
of `evalGC` when the `JobID` of the work item is the eval-GC tag and exactly
the result of `nodeGC` when it is the node-GC tag; for every other `JobID` it
issues no RPC and returns an error whose message contains that `JobID`,
whatever the server and the snapshot are. -/
theorem Process_dispatch (srv : Server) (snap : StateSnapshot)
    (evalThreshold nodeThreshold : Nat) (eval : Evaluation) :
    (eval.JobID = CoreJobEvalGC →
      Process srv snap evalThreshold nodeThreshold eval = evalGC srv snap evalThreshold) ∧
    (eval.JobID = CoreJobNodeGC →
      Process srv snap evalThreshold nodeThreshold eval = nodeGC srv snap nodeThreshold) ∧
    (eval.JobID ≠ CoreJobEvalGC → eval.JobID ≠ CoreJobNodeGC →
      Process srv snap evalThreshold nodeThreshold eval =
        (some ("core scheduler cannot handle job '" ++ eval.JobID ++ "'"), []) ∧
      eval.JobID.data <:+: ("core scheduler cannot handle job '" ++ eval.JobID ++ "'").data ∧
      ∀ (srv2 : Server) (snap2 : StateSnapshot) (t1 t2 : Nat),
        Process srv2 snap2 t1 t2 eval =
          Process srv snap evalThreshold nodeThreshold eval) := by
  refine ⟨?_, ?_, ?_⟩
  · intro h
    unfold Process
    simp only [h, if_true]
  · intro h
    have hne : ¬ CoreJobNodeGC = CoreJobEvalGC := by decide
    unfold Process
    simp only [h, hne, if_false, if_true]
  · intro h1 h2
    refine ⟨?_, ?_, ?_⟩
    · unfold Process
      simp only [h1, h2, if_false]
    · simp only [String.data_append]
      exact ⟨_, _, rfl⟩
    · intro srv2 snap2 t1 t2
      unfold Process
      simp only [h1, h2, if_false]

/-- The instance of C18 at the three kinds of work item: the eval-GC tag, the
node-GC tag and the tag `job-gc`, which the scheduler does not handle. -/
theorem Process_dispatch_witness :
    (sampleCoreEval "eval-gc").JobID = CoreJobEvalGC ∧
    Process sampleServer sampleSnapshot 10 10 (sampleCoreEval "eval-gc") =
      evalGC sampleServer sampleSnapshot 10 ∧
    (sampleCoreEval "node-gc").JobID = CoreJobNodeGC ∧
    Process sampleServer sampleSnapshot 10 10 (sampleCoreEval "node-gc") =
      nodeGC sampleServer sampleSnapshot 10 ∧
    (sampleCoreEval "job-gc").JobID ≠ CoreJobEvalGC ∧
    (sampleCoreEval "job-gc").JobID ≠ CoreJobNodeGC ∧
    Process sampleServer sampleSnapshot 10 10 (sampleCoreEval "job-gc") =
      (some ("core scheduler cannot handle job '" ++ (sampleCoreEval "job-gc").JobID ++ "'"),
        []) :=
  ⟨rfl,
    (Process_dispatch sampleServer sampleSnapshot 10 10 (sampleCoreEval "eval-gc")).1 rfl,
    rfl,
    (Process_dispatch sampleServer sampleSnapshot 10 10 (sampleCoreEval "node-gc")).2.1 rfl,
    by decide, by decide,
    ((Process_dispatch sampleServer sampleSnapshot 10 10 (sampleCoreEval "job-gc")).2.2
      (by decide) (by decide)).1⟩

/-- The dispatch on an unhandled tag, evaluated. -/
theorem Process_sample_unhandled :
    Process sampleServer sampleSnapshot 10 10 (sampleCoreEval "job-gc") =
      (some "core scheduler cannot handle job 'job-gc'", []) := by
  decide

/-! ## The service tracker: state steps -/

theorem wrapInt64_eq (x : Int) (h1 : minInt64 ≤ x) (h2 : x ≤ maxInt64) : wrapInt64 x = x := by
  unfold wrapInt64
  unfold minInt64 at h1
  unfold maxInt64 at h2
  omega

theorem timeSub_eq (t u : Time) (h1 : minInt64 ≤ t - u) (h2 : t - u ≤ maxInt64) :
    timeSub t u = t - u := by
  unfold timeSub
  rw [if_neg (not_lt.mpr h2), if_neg (not_lt.mpr h1)]

theorem service_incrementInt64_eq (s : serviceRestartTracker) (h1 : minInt64 ≤ s.count + 1)
    (h2 : s.count < maxInt64) : s.incrementInt64 = s.increment := by
  unfold serviceRestartTracker.incrementInt64 serviceRestartTracker.increment
  rw [wrapInt64_eq (s.count + 1) h1 (by omega)]

/-- Where the count does not wrap and the subtraction of instants does not
saturate, the machine computes what `nextRestart` computes on plain integers. -/
theorem service_nextRestartInt64_eq (s : serviceRestartTracker) (exitCode : Int)
    (now now2 : Time) (h1 : minInt64 ≤ s.count + 1) (h2 : s.count < maxInt64)
    (h3 : minInt64 ≤ s.startTime + s.interval - now)
    (h4 : s.startTime + s.interval - now ≤ maxInt64) :
    s.nextRestartInt64 exitCode now now2 = s.nextRestart exitCode now now2 := by
  unfold serviceRestartTracker.nextRestartInt64 serviceRestartTracker.nextRestart
  have hreset : ({ s with count := 0, startTime := now2 } :
      serviceRestartTracker).incrementInt64 =
      ({ s with count := 0, startTime := now2 } : serviceRestartTracker).increment :=
    service_incrementInt64_eq _ (show minInt64 ≤ (0 : Int) + 1 by decide)
      (show (0 : Int) < maxInt64 by decide)
  simp only [hreset, service_incrementInt64_eq s h1 h2, timeSub_eq _ _ h3 h4]

theorem service_nextRestartInt64_open (s : serviceRestartTracker) (exitCode : Int)
    (now now2 : Time) (h : now ≤ s.startTime + s.interval) :
    (s.nextRestartInt64 exitCode now now2).2 = s.incrementInt64 := by
  unfold serviceRestartTracker.nextRestartInt64
  have h1 : ¬ now > s.startTime + s.interval := not_lt.mpr h
  simp only [h1, if_false]
  split_ifs <;> rfl

theorem service_nextRestartInt64_count (s : serviceRestartTracker) (exitCode : Int)
    (now now2 : Time) (h0 : 0 ≤ s.count) (h2 : s.count < maxInt64) :
    0 ≤ (s.nextRestartInt64 exitCode now now2).2.count ∧
    (s.nextRestartInt64 exitCode now now2).2.count ≤ s.count + 1 := by
  have hw : wrapInt64 (s.count + 1) = s.count + 1 :=
    wrapInt64_eq _ (by unfold minInt64; omega) (by omega)
  have hw1 : wrapInt64 (0 + 1) = 1 := by decide
  unfold serviceRestartTracker.nextRestartInt64
  simp only [serviceRestartTracker.incrementInt64]
  split_ifs
  · simp only [hw1]
    omega
  · simp only [hw]
    omega
  · simp only [hw]
    omega

theorem service_runInt64_count (calls : List ServiceCall) :
    ∀ s : serviceRestartTracker, 0 ≤ s.count → s.count + (calls.length : Int) ≤ maxInt64 →
      0 ≤ (s.runInt64 calls).2.count ∧
      (s.runInt64 calls).2.count ≤ s.count + (calls.length : Int) := by
  induction calls with
  | nil =>
    intro s hs _
    simp only [serviceRestartTracker.runInt64, List.length_nil, Nat.cast_zero, add_zero]
    exact ⟨hs, le_refl _⟩
  | cons c rest ih =>
    intro s hs hlen
    simp only [List.length_cons, Nat.cast_add, Nat.cast_one] at hlen ⊢
    have hlt : s.count < maxInt64 := by
      have : (0 : Int) ≤ (rest.length : Int) := Int.natCast_nonneg _
      omega
    obtain ⟨hc0, hc1⟩ := service_nextRestartInt64_count s c.exitCode c.now c.now2 hs hlt
    obtain ⟨ih0, ih1⟩ := ih (s.nextRestartInt64 c.exitCode c.now c.now2).2 hc0 (by omega)
    unfold serviceRestartTracker.runInt64
    simp only
    exact ⟨ih0, by omega⟩

/-- C19, as stated, fails. A service tracker whose count is the largest `int`,
`2^63 - 1`, called inside its open window, comes out with the count `-2^63`:
the increment wraps around, so the count has not increased by one and is
negative. -/
theorem service_count_wraps_at_maxInt64 :
    (0 : Time) ≤ sampleServiceAtMaxInt.startTime + sampleServiceAtMaxInt.interval ∧
    sampleServiceAtMaxInt.count = maxInt64 ∧
    (sampleServiceAtMaxInt.nextRestartInt64 1 0 0).2.count = minInt64 ∧
    ¬ ((sampleServiceAtMaxInt.nextRestartInt64 1 0 0).2.count =
        sampleServiceAtMaxInt.count + 1) ∧
    ¬ (0 ≤ (sampleServiceAtMaxInt.nextRestartInt64 1 0 0).2.count) := by
  refine ⟨?_, ?_, ?_, ?_, ?_⟩ <;> decide

/-- C19, amended. State step of the service tracker inside an open window, as
the machine computes it: for every call whose clock reading `now` is not after
`windowStart + interval`, on the within-budget branch as on the throttled one,
`windowStart`, `maxAttempts`, `interval` and `delay` are unchanged, whatever
the count; and the count increases by exactly one when it is an `int` below the
largest one. A call that changes `windowStart` has
`now > windowStart + interval`, in every state. From a count that is not
negative, a sequence of calls that the count can number without passing the
largest `int` (from count 0: fewer than `2^63` calls) leaves the count not
negative. -/
theorem service_nextRestartInt64_open_window_step (s : serviceRestartTracker)
    (exitCode : Int) (now now2 : Time) :
    (now ≤ s.startTime + s.interval →
      (s.nextRestartInt64 exitCode now now2).2.startTime = s.startTime ∧
      (s.nextRestartInt64 exitCode now now2).2.maxAttempts = s.maxAttempts ∧
      (s.nextRestartInt64 exitCode now now2).2.interval = s.interval ∧
      (s.nextRestartInt64 exitCode now now2).2.delay = s.delay ∧
      (s.branch now = .budget ∨ s.branch now = .throttled)) ∧
    (now ≤ s.startTime + s.interval → minInt64 ≤ s.count → s.count < maxInt64 →
      (s.nextRestartInt64 exitCode now now2).2.count = s.count + 1) ∧
    ((s.nextRestartInt64 exitCode now now2).2.startTime ≠ s.startTime →
      now > s.startTime + s.interval) ∧
    (∀ calls : List ServiceCall, 0 ≤ s.count → s.count + (calls.length : Int) ≤ maxInt64 →
      0 ≤ (s.runInt64 calls).2.count) := by
  refine ⟨?_, ?_, ?_, ?_⟩
  · intro h
    rw [service_nextRestartInt64_open s exitCode now now2 h]
    refine ⟨rfl, rfl, rfl, rfl, ?_⟩
    unfold serviceRestartTracker.branch
    have h1 : ¬ now > s.startTime + s.interval := not_lt.mpr h
    simp only [h1, if_false]
    split_ifs
    · exact Or.inl rfl
    · exact Or.inr rfl
  · intro h hmin hmax
    rw [service_nextRestartInt64_open s exitCode now now2 h]
    simp only [serviceRestartTracker.incrementInt64]
    exact wrapInt64_eq _ (by omega) (by omega)
  · intro hne
    by_contra hc
    exact hne (by rw [service_nextRestartInt64_open s exitCode now now2 (not_lt.mp hc)]; rfl)
  · intro calls hs hlen
    exact (service_runInt64_count calls s hs hlen).1

/-- The instance of amended C19 at the sample tracker whose budget is used up,
called 3s after the window start, and at three calls in a row. -/
theorem service_nextRestartInt64_open_window_step_witness :
    3 * second ≤ sampleServiceExhausted.startTime + sampleServiceExhausted.interval ∧
    minInt64 ≤ sampleServiceExhausted.count ∧ sampleServiceExhausted.count < maxInt64 ∧
    (sampleServiceExhausted.nextRestartInt64 1 (3 * second) (3 * second)).2.startTime =
      sampleServiceExhausted.startTime ∧
    (sampleServiceExhausted.nextRestartInt64 1 (3 * second) (3 * second)).2.count =
      sampleServiceExhausted.count + 1 ∧
    0 ≤ sampleServiceExhausted.count ∧
    sampleServiceExhausted.count + (sampleImmediateCalls.length : Int) ≤ maxInt64 ∧
    0 ≤ (sampleServiceExhausted.runInt64 sampleImmediateCalls).2.count :=
  have hall := service_nextRestartInt64_open_window_step sampleServiceExhausted 1
    (3 * second) (3 * second)
  ⟨by decide, by decide, by decide, (hall.1 (by decide)).1,
    hall.2.1 (by decide) (by decide) (by decide), by decide, by decide,
    hall.2.2.2 sampleImmediateCalls (by decide) (by decide)⟩

/-- The throttled call of the sample tracker as the machine computes it: the
same pair and the same tracker as on plain integers. -/
theorem service_nextRestartInt64_sample :
    sampleServiceExhausted.nextRestartInt64 1 (3 * second) (3 * second) =
      ((true, 7 * second), { sampleServiceExhausted with count := 3 }) ∧
    sampleServiceExhausted.nextRestartInt64 1 (3 * second) (3 * second) =
      sampleServiceExhausted.nextRestart 1 (3 * second) (3 * second) := by
  constructor <;> decide

/-! ## Idempotence of the two passes -/

theorem evalGCKeeps_congr_at (snap1 snap2 : StateSnapshot) (thr : Nat) (e : Evaluation)
    (h : snap1.AllocsByEval e.ID = snap2.AllocsByEval e.ID) :
    evalGCKeeps snap1 thr e = evalGCKeeps snap2 thr e := by
  unfold evalGCKeeps
  rw [h]

theorem evalGCScan_nil_of_none_kept (snap : StateSnapshot) (thr : Nat)
    (evals : List Evaluation) (h : ∀ e ∈ evals, evalGCKeeps snap thr e = false) :
    evalGCScan snap thr evals ([], []) = ([], []) := by
  have hf : evals.filter (evalGCKeeps snap thr) = [] := by
    rw [List.filter_eq_nil_iff]
    intro e he
    simp [h e he]
  rw [evalGCScan_eq, hf]
  rfl

theorem nodeGCScan_nil_of_none_kept (snap : StateSnapshot) (thr : Nat)
    (nodes : List Node) (h : ∀ n ∈ nodes, nodeGCKeeps snap thr n = false) :
    nodeGCScan snap thr nodes [] = [] := by
  have hf : nodes.filter (nodeGCKeeps snap thr) = [] := by
    rw [List.filter_eq_nil_iff]
    intro n hn
    simp [h n hn]
  rw [nodeGCScan_eq, hf]
  rfl

/-- C15. Idempotence of the passes. Evaluation pass: on a snapshot that lists
an allocation id under one evaluation id only, let the scan yield the
evaluation ids `gcEval` and the allocation ids `gcAlloc`; on the snapshot from
which these evaluations and allocations have been removed, the scan with the
same threshold yields nothing and `evalGC` issues no RPC and returns no error.
Node pass: let the scan select the node ids `gcNode`; on the snapshot from
which these nodes have been removed, the scan with the same threshold selects
nothing and `nodeGC` issues no RPC and returns no error. -/
theorem gc_passes_idempotent (srv : Server) (snap : StateSnapshot) (oldThreshold : Nat) :
    (∀ (evals : List Evaluation) (gcEval gcAlloc : List String),
      snap.Evals = .ok evals →
      (∀ eid1 eid2 allocs1 allocs2, eid1 ≠ eid2 →
        snap.AllocsByEval eid1 = .ok allocs1 → snap.AllocsByEval eid2 = .ok allocs2 →
        ∀ a1 ∈ allocs1, ∀ a2 ∈ allocs2, a1.ID ≠ a2.ID) →
      evalGCScan snap oldThreshold evals ([], []) = (gcEval, gcAlloc) →
        (snap.deleteEvals gcEval gcAlloc).Evals =
          .ok (evals.filter (fun e => decide (e.ID ∉ gcEval))) ∧
        evalGCScan (snap.deleteEvals gcEval gcAlloc) oldThreshold
          (evals.filter (fun e => decide (e.ID ∉ gcEval))) ([], []) = ([], []) ∧
        evalGC srv (snap.deleteEvals gcEval gcAlloc) oldThreshold = (none, [])) ∧
    (∀ (nodes : List Node) (gcNode : List String),
      snap.Nodes = .ok nodes →
      nodeGCScan snap oldThreshold nodes [] = gcNode →
        (snap.deregisterNodes gcNode).Nodes =
          .ok (nodes.filter (fun n => decide (n.ID ∉ gcNode))) ∧
        nodeGCScan (snap.deregisterNodes gcNode) oldThreshold
          (nodes.filter (fun n => decide (n.ID ∉ gcNode))) [] = [] ∧
        nodeGC srv (snap.deregisterNodes gcNode) oldThreshold = (none, [])) := by
  constructor
  · intro evals gcEval gcAlloc h hdisj hscan
    have hE : gcEval = (evals.filter (evalGCKeeps snap oldThreshold)).map (fun e => e.ID) := by
      have := congrArg Prod.fst hscan
      rw [evalGCScan_eq] at this
      simpa using this.symm
    have hA : gcAlloc = (evals.filter (evalGCKeeps snap oldThreshold)).flatMap
        (fun e => allocIDsByEval snap e.ID) := by
      have := congrArg Prod.snd hscan
      rw [evalGCScan_eq] at this
      simpa using this.symm
    have hEvals : (snap.deleteEvals gcEval gcAlloc).Evals =
        .ok (evals.filter (fun e => decide (e.ID ∉ gcEval))) := by
      simp only [StateSnapshot.deleteEvals, h]
      rfl
    have hnone : ∀ e ∈ evals.filter (fun e => decide (e.ID ∉ gcEval)),
        evalGCKeeps (snap.deleteEvals gcEval gcAlloc) oldThreshold e = false := by
      intro e he
      rw [List.mem_filter] at he
      obtain ⟨hmem, hnot⟩ := he
      have hnot2 : e.ID ∉ gcEval := of_decide_eq_true hnot
      have hk : evalGCKeeps snap oldThreshold e = false := by
        by_contra hc
        have hkt : evalGCKeeps snap oldThreshold e = true := by
          cases hv : evalGCKeeps snap oldThreshold e
          · exact absurd hv hc
          · rfl
        apply hnot2
        rw [hE]
        exact List.mem_map.mpr ⟨e, List.mem_filter.mpr ⟨hmem, hkt⟩, rfl⟩
      have hlook : (snap.deleteEvals gcEval gcAlloc).AllocsByEval e.ID =
          snap.AllocsByEval e.ID := by
        simp only [StateSnapshot.deleteEvals]
        cases hl : snap.AllocsByEval e.ID with
        | error err => rfl
        | ok allocs =>
          have hfil : allocs.filter (fun a => decide (a.ID ∉ gcAlloc)) = allocs := by
            rw [List.filter_eq_self]
            intro a ha
            apply decide_eq_true
            intro hin
            rw [hA, List.mem_flatMap] at hin
            obtain ⟨e2, he2, ha2⟩ := hin
            obtain ⟨allocs2, hl2, a2, ha2mem, hid⟩ :=
              (mem_allocIDsByEval snap e2.ID a.ID).mp ha2
            have hne : e.ID ≠ e2.ID := by
              intro heq
              apply hnot2
              rw [hE, heq]
              exact List.mem_map.mpr ⟨e2, he2, rfl⟩
            exact hdisj e.ID e2.ID allocs allocs2 hne hl hl2 a ha a2 ha2mem hid.symm
          show Except.map _ (Except.ok allocs) = Except.ok allocs
          simp only [Except.map, hfil]
      rw [evalGCKeeps_congr_at _ snap oldThreshold e hlook, hk]
    have hscan2 := evalGCScan_nil_of_none_kept (snap.deleteEvals gcEval gcAlloc) oldThreshold
      _ hnone
    exact ⟨hEvals, hscan2,
      evalGC_of_scan_nil srv (snap.deleteEvals gcEval gcAlloc) oldThreshold _ hEvals hscan2⟩
  · intro nodes gcNode h hscan
    have hN : gcNode = (nodes.filter (nodeGCKeeps snap oldThreshold)).map (fun n => n.ID) := by
      rw [← hscan, nodeGCScan_eq, List.nil_append]
    have hNodes : (snap.deregisterNodes gcNode).Nodes =
        .ok (nodes.filter (fun n => decide (n.ID ∉ gcNode))) := by
      simp only [StateSnapshot.deregisterNodes, h]
      rfl
    have hnone : ∀ n ∈ nodes.filter (fun n => decide (n.ID ∉ gcNode)),
        nodeGCKeeps (snap.deregisterNodes gcNode) oldThreshold n = false := by
      intro n hn
      rw [List.mem_filter] at hn
      obtain ⟨hmem, hnot⟩ := hn
      have hnot2 : n.ID ∉ gcNode := of_decide_eq_true hnot
      have hk : nodeGCKeeps snap oldThreshold n = false := by
        by_contra hc
        have hkt : nodeGCKeeps snap oldThreshold n = true := by
          cases hv : nodeGCKeeps snap oldThreshold n
          · exact absurd hv hc
          · rfl
        apply hnot2
        rw [hN]
        exact List.mem_map.mpr ⟨n, List.mem_filter.mpr ⟨hmem, hkt⟩, rfl⟩
      have hsame : nodeGCKeeps (snap.deregisterNodes gcNode) oldThreshold n =
          nodeGCKeeps snap oldThreshold n := rfl
      rw [hsame, hk]
    have hscan2 := nodeGCScan_nil_of_none_kept (snap.deregisterNodes gcNode) oldThreshold
      _ hnone
    refine ⟨hNodes, hscan2, ?_⟩
    rw [nodeGC_eq srv _ oldThreshold _ hNodes, hscan2]
    rfl

/-- The instance of C15 at the sample snapshot and threshold 10: after `e1`,
`a1` and `n1` have been removed, both passes find nothing. -/
theorem gc_passes_idempotent_witness :
    sampleSnapshot.Evals = .ok sampleEvals ∧
    evalGCScan sampleSnapshot 10 sampleEvals ([], []) = (["e1"], ["a1"]) ∧
    evalGC sampleServer (sampleSnapshot.deleteEvals ["e1"] ["a1"]) 10 = (none, []) ∧
    sampleSnapshot.Nodes = .ok sampleNodes ∧
    nodeGCScan sampleSnapshot 10 sampleNodes [] = ["n1"] ∧
    nodeGC sampleServer (sampleSnapshot.deregisterNodes ["n1"]) 10 = (none, []) :=
  have hall := gc_passes_idempotent sampleServer sampleSnapshot 10
  ⟨rfl, by decide,
    (hall.1 sampleEvals ["e1"] ["a1"] rfl sampleSnapshot_allocs_disjoint (by decide)).2.2,
    rfl, by decide,
    (hall.2 sampleNodes ["n1"] rfl (by decide)).2.2⟩

/-! ## The service tracker: pacing per window -/

theorem splitWindows_flatten (l : List Branch) :
    (splitWindows l).1 ++ (splitWindows l).2.flatten = l := by
  induction l with
  | nil => rfl
  | cons b rest ih =>
    unfold splitWindows
    by_cases hb : b = .expired
    · simp only [hb, if_true, List.nil_append, List.flatten_cons, List.cons_append, ih]
    · simp only [hb, if_false, List.cons_append, ih]

theorem splitWindows_shape (l : List Branch) :
    Branch.expired ∉ (splitWindows l).1 ∧
    ∀ w ∈ (splitWindows l).2, ∃ rest, w = .expired :: rest ∧ Branch.expired ∉ rest := by
  induction l with
  | nil =>
    refine ⟨by simp [splitWindows], ?_⟩
    intro w hw
    simp [splitWindows] at hw
  | cons b rest ih =>
    unfold splitWindows
    by_cases hb : b = .expired
    · simp only [hb, if_true]
      refine ⟨List.not_mem_nil _, ?_⟩
      intro w hw
      rcases List.mem_cons.mp hw with hw | hw
      · exact ⟨_, hw, ih.1⟩
      · exact ih.2 w hw
    · simp only [hb, if_false]
      refine ⟨?_, ih.2⟩
      intro hmem
      rcases List.mem_cons.mp hmem with hmem | hmem
      · exact hb hmem.symm
      · exact ih.1 hmem

theorem unthrottledCount_cons (b : Branch) (w : List Branch) :
    unthrottledCount (b :: w) = (if b.unthrottled = true then 1 else 0) + unthrottledCount w := by
  unfold unthrottledCount
  by_cases hb : b.unthrottled = true
  · simp only [List.filter_cons, hb, if_true, List.length_cons]
    omega
  · have hf : b.unthrottled = false := by
      cases hv : b.unthrottled
      · rfl
      · exact absurd hv hb
    simp [List.filter_cons, hf]

theorem service_nextRestart_by_branch (s : serviceRestartTracker) (exitCode : Int)
    (now now2 : Time) :
    (s.nextRestart exitCode now now2).1 =
      (true, if s.branch now = .throttled then s.startTime + s.interval - now else s.delay) ∧
    (s.nextRestart exitCode now now2).2.maxAttempts = s.maxAttempts ∧
    (s.nextRestart exitCode now now2).2.count =
      (if s.branch now = .expired then 1 else s.count + 1) := by
  unfold serviceRestartTracker.nextRestart serviceRestartTracker.branch
  simp only [serviceRestartTracker.increment]
  by_cases h1 : now > s.startTime + s.interval
  · simp [h1]
  · by_cases h2 : s.count < s.maxAttempts
    · simp [h1, h2]
    · simp [h1, h2]

theorem service_branches_bound (calls : List ServiceCall) :
    ∀ s : serviceRestartTracker,
      (unthrottledCount (splitWindows (s.branches calls)).1 : Int) ≤
        max 0 (s.maxAttempts - s.count) ∧
      ∀ w ∈ (splitWindows (s.branches calls)).2,
        (unthrottledCount w : Int) ≤ max 1 s.maxAttempts := by
  induction calls with
  | nil =>
    intro s
    refine ⟨?_, ?_⟩
    · simp [serviceRestartTracker.branches, splitWindows, unthrottledCount]
    · intro w hw
      simp [serviceRestartTracker.branches, splitWindows] at hw
  | cons c rest ih =>
    intro s
    obtain ⟨_, hm, hcount⟩ := service_nextRestart_by_branch s c.exitCode c.now c.now2
    obtain ⟨ih1, ih2⟩ := ih (s.nextRestart c.exitCode c.now c.now2).2
    rw [hm] at ih1 ih2
    rw [hcount] at ih1
    unfold serviceRestartTracker.branches splitWindows
    cases hb : s.branch c.now with
    | expired =>
      simp only [hb, if_true] at ih1 ⊢
      refine ⟨?_, ?_⟩
      · simp [unthrottledCount]
      · intro w hw
        rcases List.mem_cons.mp hw with hw | hw
        · rw [hw, unthrottledCount_cons]
          simp only [Branch.unthrottled, if_true]
          push_cast
          omega
        · exact ih2 w hw
    | budget =>
      have hne : ¬ (Branch.budget = Branch.expired) := by decide
      have hlt : s.count < s.maxAttempts := by
        unfold serviceRestartTracker.branch at hb
        split_ifs at hb with h1 h2
        exact h2
      simp only [hb, hne, if_false] at ih1 ⊢
      refine ⟨?_, ih2⟩
      rw [unthrottledCount_cons]
      simp only [Branch.unthrottled, if_true]
      push_cast
      omega
    | throttled =>
      have hne : ¬ (Branch.throttled = Branch.expired) := by decide
      simp only [hb, hne, if_false] at ih1 ⊢
      refine ⟨?_, ih2⟩
      rw [unthrottledCount_cons]
      simp only [Branch.unthrottled]
      push_cast
      omega

/-- C20. Pacing bound per window of the service tracker. The tracker
`newRestartTracker` creates for a service has count 0; for every sequence of
calls, group the calls by window: the calls before the first window expiry,
and one group per window expiry, made of the expiry call and the calls that
follow it up to the next expiry. Then the groups, in order, make up the whole
sequence; among the calls before the first expiry at most `maxAttempts` (none
if `maxAttempts` is negative) take a branch that returns the base delay; in
every later window at most `max(1, maxAttempts)` do; and every call that takes
no such branch returns `(true, windowEnd - now)`, every other call
`(true, delay)`. The bound needs no assumption on the order of the clock
readings. -/
theorem service_window_pacing (restartPolicy : RestartPolicy) (t0 : Time)
    (calls : List ServiceCall) :
    ∃ s0 : serviceRestartTracker,
      newRestartTracker JobTypeService restartPolicy t0 = .service s0 ∧
      s0.count = 0 ∧ s0.maxAttempts = restartPolicy.Attempts ∧
      (splitWindows (s0.branches calls)).1 ++ (splitWindows (s0.branches calls)).2.flatten =
        s0.branches calls ∧
      Branch.expired ∉ (splitWindows (s0.branches calls)).1 ∧
      (∀ w ∈ (splitWindows (s0.branches calls)).2,
        ∃ rest, w = .expired :: rest ∧ Branch.expired ∉ rest) ∧
      (unthrottledCount (splitWindows (s0.branches calls)).1 : Int) ≤
        max 0 restartPolicy.Attempts ∧
      (0 ≤ restartPolicy.Attempts →
        (unthrottledCount (splitWindows (s0.branches calls)).1 : Int) ≤
          restartPolicy.Attempts) ∧
      (∀ w ∈ (splitWindows (s0.branches calls)).2,
        (unthrottledCount w : Int) ≤ max 1 restartPolicy.Attempts) ∧
      (∀ (s : serviceRestartTracker) (exitCode : Int) (now now2 : Time),
        (s.branch now = .throttled →
          (s.nextRestart exitCode now now2).1 = (true, s.startTime + s.interval - now)) ∧
        (s.branch now ≠ .throttled →
          (s.nextRestart exitCode now now2).1 = (true, s.delay))) := by
  refine ⟨{ maxAttempts := restartPolicy.Attempts, startTime := t0,
            interval := restartPolicy.Interval, delay := restartPolicy.Delay, count := 0 },
    ?_, rfl, rfl, splitWindows_flatten _, (splitWindows_shape _).1, (splitWindows_shape _).2,
    ?_, ?_, ?_, ?_⟩
  · unfold newRestartTracker
    simp
  · have h := (service_branches_bound calls
      { maxAttempts := restartPolicy.Attempts, startTime := t0,
        interval := restartPolicy.Interval, delay := restartPolicy.Delay, count := 0 }).1
    simpa using h
  · intro hm
    have h := (service_branches_bound calls
      { maxAttempts := restartPolicy.Attempts, startTime := t0,
        interval := restartPolicy.Interval, delay := restartPolicy.Delay, count := 0 }).1
    simp only [sub_zero] at h
    rw [max_eq_right hm] at h
    exact h
  · exact (service_branches_bound calls
      { maxAttempts := restartPolicy.Attempts, startTime := t0,
        interval := restartPolicy.Interval, delay := restartPolicy.Delay, count := 0 }).2
  · intro s exitCode now now2
    have h := (service_nextRestart_by_branch s exitCode now now2).1
    constructor
    · intro hb
      rw [h, if_pos hb]
    · intro hb
      rw [h, if_neg hb]

/-- The instance of C20 at the window example with five calls, the fourth of
which finds the window over. -/
theorem service_window_pacing_witness :
    (0 : Int) ≤ samplePolicy.Attempts ∧
    ∃ s0 : serviceRestartTracker,
      newRestartTracker JobTypeService samplePolicy 0 = .service s0 ∧
      s0.count = 0 ∧ s0.maxAttempts = samplePolicy.Attempts ∧
      (splitWindows (s0.branches samplePacedCalls)).1 ++
          (splitWindows (s0.branches samplePacedCalls)).2.flatten =
        s0.branches samplePacedCalls ∧
      (unthrottledCount (splitWindows (s0.branches samplePacedCalls)).1 : Int) ≤
        samplePolicy.Attempts ∧
      (∀ w ∈ (splitWindows (s0.branches samplePacedCalls)).2,
        (unthrottledCount w : Int) ≤ max 1 samplePolicy.Attempts) :=
  have ⟨s0, h1, h2, h3, h4, _, _, _, h8, h9, _⟩ :=
    service_window_pacing samplePolicy 0 samplePacedCalls
  ⟨by decide, s0, h1, h2, h3, h4, h8 (by decide), h9⟩

/-- The window example with five calls, evaluated: two calls within budget and
one throttled call before the expiry, then the expiry call and one call within
budget in the window it opens. -/
theorem service_window_pacing_sample :
    ({ maxAttempts := 2, delay := second, interval := 10 * second, count := 0,
       startTime := 0 } : serviceRestartTracker).branches samplePacedCalls =
      [.budget, .budget, .throttled, .expired, .budget] ∧
    splitWindows [.budget, .budget, .throttled, .expired, .budget] =
      ([.budget, .budget, .throttled], [[.expired, .budget]]) ∧
    (({ maxAttempts := 2, delay := second, interval := 10 * second, count := 0,
        startTime := 0 } : serviceRestartTracker).run samplePacedCalls).1 =
      [(true, second), (true, second), (true, 10 * second), (true, second),
        (true, second)] := by
  refine ⟨?_, ?_, ?_⟩ <;> decide

end Nomad
